import Mathlib

/-!
Verification model of the fuel-consumption tracker (src/app.js).

The tracker is a JavaScript class holding two in-memory collections,
`vehicles` and `fuelRecords`, with CRUD operations and aggregate
maintenance.  We embed it shallowly:

* JavaScript numbers are modelled by `JNum`: an exact rational for every
  finite value, plus the non-finite values `nan`, `inf` (Infinity) and
  `ninf` (-Infinity).  Arithmetic (`add`, `sub`, `div`) follows the
  JavaScript semantics on these values (e.g. `Infinity - Infinity = NaN`,
  division of a nonzero finite value by zero gives a signed infinity,
  `0/0 = NaN`).  `x.toFixed(2)` followed by `parseFloat`, which the code
  uses to round to two decimals, is `JNum.round2`: round-half-up to a
  multiple of 1/100 on finite values and the identity on non-finite ones
  (toFixed prints "Infinity"/"NaN", which parseFloat reads back).
* Numeric arguments are modelled post-coercion: the code applies
  `parseFloat` to its `fuelAmount`/`distance` arguments, and `parseFloat`
  can return any JavaScript number including NaN, so operation arguments
  range over all of `JNum`.
* `findIndex` / `find` followed by in-place mutation or `splice` is
  modelled as first-match replacement/removal in the list.
* `Date.now()`-derived strings (timestamps, generated ids) are passed in
  as explicit arguments.
* `localStorage` persistence (`saveToStorage`/`loadFromStorage`) only
  mirrors the in-memory state and is invisible to every claim; it is not
  modelled.
* Thrown `Error`s are modelled by `Except String`, carrying the message.
-/

namespace FuelTracker

/-- A JavaScript number: a finite value (exact rational) or one of the
non-finite values NaN, Infinity, -Infinity. -/
inductive JNum where
  | fin : ℚ → JNum
  | nan : JNum
  | inf : JNum
  | ninf : JNum
deriving Repr, DecidableEq

namespace JNum

/-- JavaScript addition on numbers. -/
def add : JNum → JNum → JNum
  | fin a, fin b => fin (a + b)
  | nan, _ => nan
  | _, nan => nan
  | inf, ninf => nan
  | ninf, inf => nan
  | inf, _ => inf
  | _, inf => inf
  | ninf, _ => ninf
  | _, ninf => ninf

/-- JavaScript negation. -/
def neg : JNum → JNum
  | fin a => fin (-a)
  | nan => nan
  | inf => ninf
  | ninf => inf

/-- JavaScript subtraction: `a - b = a + (-b)`. -/
def sub (a b : JNum) : JNum := a.add b.neg

/-- JavaScript division on numbers (we identify +0 and -0 with 0, so a
finite value divided by zero uses the sign of the numerator). -/
def div : JNum → JNum → JNum
  | nan, _ => nan
  | _, nan => nan
  | inf, fin b => if b < 0 then ninf else inf
  | ninf, fin b => if b < 0 then inf else ninf
  | inf, _ => nan
  | ninf, _ => nan
  | fin _, inf => fin 0
  | fin _, ninf => fin 0
  | fin a, fin b =>
      if b = 0 then (if a = 0 then nan else if 0 < a then inf else ninf)
      else fin (a / b)

/-- The JavaScript comparison `x > 0` (false on NaN). -/
def gtZero : JNum → Bool
  | fin a => decide (0 < a)
  | inf => true
  | _ => false

/-- `parseFloat(x.toFixed(2))`: round-half-up to two decimal places on
finite values, identity on NaN and the infinities. -/
def round2 : JNum → JNum
  | fin a => fin (((round (a * 100) : ℤ) : ℚ) / 100)
  | x => x

/-- Whether the number is finite. -/
def isFin : JNum → Bool
  | fin _ => true
  | _ => false

end JNum

/-- A vehicle object, as constructed by `addVehicle`. -/
structure Vehicle where
  id : String
  name : String
  fuelType : String
  createdAt : String
  totalDistance : JNum
  totalFuelConsumed : JNum
deriving Repr, DecidableEq

/-- A fuel record object, as constructed by `recordFuelConsumption`. -/
structure FuelRecord where
  id : String
  vehicleId : String
  fuelAmount : JNum
  distance : JNum
  consumption : JNum
  date : String
  notes : String
  createdAt : String
deriving Repr, DecidableEq

/-- The in-memory state of a `FuelConsumptionTracker` instance: the
`vehicles` and `fuelRecords` arrays. -/
structure State where
  vehicles : List Vehicle
  fuelRecords : List FuelRecord
deriving Repr, DecidableEq

/-- The `updates` argument of `updateRecord`.  A field is `none` when the
corresponding key is absent (`undefined`) in the update object; numeric
fields hold the post-`parseFloat` value. -/
structure RecordUpdates where
  fuelAmount : Option JNum := none
  distance : Option JNum := none
  date : Option String := none
  notes : Option String := none
deriving Repr, DecidableEq

/-- `this.vehicles.find(v => v.id === vid)` followed by in-place mutation
of the found vehicle: apply `f` to the first vehicle whose id matches,
leave everything else unchanged (identity when there is no match, which
models the silent skip in the update/delete paths). -/
def updateFirstVehicle (vid : String) (f : Vehicle → Vehicle) : List Vehicle → List Vehicle
  | [] => []
  | v :: vs => if v.id = vid then f v :: vs else v :: updateFirstVehicle vid f vs

/-- `addVehicle(vehicleId, name, fuelType = 'petrol')`: push a fresh
vehicle with zeroed aggregates; `now` is the `new Date().toISOString()`
timestamp. -/
def addVehicle (s : State) (vehicleId name : String) (fuelType : String := "petrol")
    (now : String := "") : State × Vehicle :=
  let vehicle : Vehicle :=
    { id := vehicleId
      name := name
      fuelType := fuelType
      createdAt := now
      totalDistance := .fin 0
      totalFuelConsumed := .fin 0 }
  ({ s with vehicles := s.vehicles ++ [vehicle] }, vehicle)

/-- `recordFuelConsumption(vehicleId, fuelAmount, distance, date, notes)`.
`newId` is the value of `this.generateId()` and `now` the current
timestamp; `date = none` models a null/omitted (falsy) date argument. -/
def recordFuelConsumption (s : State) (vehicleId : String) (fuelAmount distance : JNum)
    (date : Option String := none) (notes : String := "")
    (newId : String := "") (now : String := "") :
    Except String (State × FuelRecord) :=
  match s.vehicles.find? (fun v => v.id = vehicleId) with
  | none => .error ("Vehicle with ID " ++ vehicleId ++ " not found")
  | some _ =>
      let record : FuelRecord :=
        { id := newId
          vehicleId := vehicleId
          fuelAmount := fuelAmount
          distance := distance
          consumption := (distance.div fuelAmount).round2
          date := match date with | some d => d | none => now
          notes := notes
          createdAt := now }
      let newVehicles := updateFirstVehicle vehicleId
        (fun v => { v with
          totalDistance := v.totalDistance.add record.distance
          totalFuelConsumed := v.totalFuelConsumed.add record.fuelAmount }) s.vehicles
      .ok ({ vehicles := newVehicles, fuelRecords := s.fuelRecords ++ [record] }, record)

/-- `getVehicleRecords(vehicleId)`: filter, preserving order. -/
def getVehicleRecords (s : State) (vehicleId : String) : List FuelRecord :=
  s.fuelRecords.filter (fun r => r.vehicleId = vehicleId)

/-- `records.reduce((sum, r) => sum + r.distance, 0)`. -/
def sumDist (rs : List FuelRecord) : JNum :=
  rs.foldl (fun acc r => acc.add r.distance) (.fin 0)

/-- `records.reduce((sum, r) => sum + r.fuelAmount, 0)`. -/
def sumFuel (rs : List FuelRecord) : JNum :=
  rs.foldl (fun acc r => acc.add r.fuelAmount) (.fin 0)

/-- `getAverageConsumption(vehicleId)`. -/
def getAverageConsumption (s : State) (vehicleId : String) : JNum :=
  let records := getVehicleRecords s vehicleId
  if records.length = 0 then .fin 0
  else
    let totalKm := sumDist records
    let totalLiters := sumFuel records
    if totalLiters.gtZero then (totalKm.div totalLiters).round2 else .fin 0

/-- Apply the four `if (updates.x !== undefined)` assignments of
`updateRecord` to a record. -/
def patchRecord (u : RecordUpdates) (r : FuelRecord) : FuelRecord :=
  { r with
    fuelAmount := match u.fuelAmount with | some x => x | none => r.fuelAmount
    distance := match u.distance with | some x => x | none => r.distance
    date := match u.date with | some d => d | none => r.date
    notes := match u.notes with | some n => n | none => r.notes }

/-- The consumption recalculation step of `updateRecord`: recompute only
when both patched `distance` and `fuelAmount` are positive, otherwise
keep the previous (possibly stale) value. -/
def recalcConsumption (r : FuelRecord) : FuelRecord :=
  if r.distance.gtZero && r.fuelAmount.gtZero then
    { r with consumption := (r.distance.div r.fuelAmount).round2 }
  else r

/-- `findIndex` on `fuelRecords` followed by in-place patching: returns
`(oldRecord, newRecord, newList)` for the first id match, `none` when the
record is absent. -/
def updateRecordList (recordId : String) (u : RecordUpdates) :
    List FuelRecord → Option (FuelRecord × FuelRecord × List FuelRecord)
  | [] => none
  | r :: rs =>
      if r.id = recordId then
        let r' := recalcConsumption (patchRecord u r)
        some (r, r', r' :: rs)
      else
        match updateRecordList recordId u rs with
        | none => none
        | some (o, n, rs') => some (o, n, r :: rs')

/-- The vehicle-aggregate adjustment of `updateRecord`: subtract the old
contribution, add the new one. -/
def applyDelta (oldR newR : FuelRecord) (v : Vehicle) : Vehicle :=
  { v with
    totalDistance := (v.totalDistance.sub oldR.distance).add newR.distance
    totalFuelConsumed := (v.totalFuelConsumed.sub oldR.fuelAmount).add newR.fuelAmount }

/-- `updateRecord(recordId, updates)`. -/
def updateRecord (s : State) (recordId : String) (u : RecordUpdates) :
    Except String (State × FuelRecord) :=
  match updateRecordList recordId u s.fuelRecords with
  | none => .error ("Record with ID " ++ recordId ++ " not found")
  | some (oldR, newR, newRecords) =>
      let newVehicles := updateFirstVehicle newR.vehicleId (applyDelta oldR newR) s.vehicles
      .ok ({ vehicles := newVehicles, fuelRecords := newRecords }, newR)

/-- `findIndex` on `fuelRecords` followed by `splice(index, 1)`: remove
the first record whose id matches, returning it and the remaining list. -/
def removeFirstRecord (recordId : String) :
    List FuelRecord → Option (FuelRecord × List FuelRecord)
  | [] => none
  | r :: rs =>
      if r.id = recordId then some (r, rs)
      else
        match removeFirstRecord recordId rs with
        | none => none
        | some (x, rs') => some (x, r :: rs')

/-- `deleteRecord(recordId)`. -/
def deleteRecord (s : State) (recordId : String) : Except String (State × Bool) :=
  match removeFirstRecord recordId s.fuelRecords with
  | none => .error ("Record with ID " ++ recordId ++ " not found")
  | some (record, rest) =>
      let newVehicles := updateFirstVehicle record.vehicleId
        (fun v => { v with
          totalDistance := v.totalDistance.sub record.distance
          totalFuelConsumed := v.totalFuelConsumed.sub record.fuelAmount }) s.vehicles
      .ok ({ vehicles := newVehicles, fuelRecords := rest }, true)

/-- `findIndex` on `vehicles` followed by `splice(index, 1)`. -/
def removeFirstVehicle (vid : String) :
    List Vehicle → Option (Vehicle × List Vehicle)
  | [] => none
  | v :: vs =>
      if v.id = vid then some (v, vs)
      else
        match removeFirstVehicle vid vs with
        | none => none
        | some (x, vs') => some (x, v :: vs')

/-- `deleteVehicle(vehicleId)`: cascade-delete the matching records, then
remove the vehicle. -/
def deleteVehicle (s : State) (vehicleId : String) : Except String (State × Bool) :=
  match removeFirstVehicle vehicleId s.vehicles with
  | none => .error ("Vehicle with ID " ++ vehicleId ++ " not found")
  | some (_, restVehicles) =>
      .ok ({ vehicles := restVehicles
             fuelRecords := s.fuelRecords.filter (fun r => ¬ r.vehicleId = vehicleId) },
           true)

/-!
JSON layer for `exportData`/`importData`.

`exportData` returns `JSON.stringify({vehicles, records, exportedAt}, null, 2)`
and `importData` starts with `JSON.parse`.  We model JSON text by the value
it parses to (`JsVal`) and the composite `JSON.parse ∘ JSON.stringify` by the
value-level function `jsonRoundTrip`, following the ECMAScript semantics:
finite numbers, strings, booleans, null, arrays and objects survive the
round trip unchanged, while the non-finite numbers NaN and ±Infinity are
serialized as `null`.  An unparseable import argument is modelled as
`none`.
-/

/-- A JavaScript value as produced by `JSON.parse` (also used to compare
in-memory tracker data with imported data). -/
inductive JsVal where
  | num : JNum → JsVal
  | str : String → JsVal
  | bool : Bool → JsVal
  | null : JsVal
  | arr : List JsVal → JsVal
  | obj : List (String × JsVal) → JsVal
deriving Repr

mutual

/-- `JSON.parse(JSON.stringify(x))` at the value level. -/
def jsonRoundTrip : JsVal → JsVal
  | .num (.fin q) => .num (.fin q)
  | .num _ => .null
  | .str s => .str s
  | .bool b => .bool b
  | .null => .null
  | .arr xs => .arr (jsonRoundTripList xs)
  | .obj fs => .obj (jsonRoundTripObj fs)

def jsonRoundTripList : List JsVal → List JsVal
  | [] => []
  | x :: xs => jsonRoundTrip x :: jsonRoundTripList xs

def jsonRoundTripObj : List (String × JsVal) → List (String × JsVal)
  | [] => []
  | (k, v) :: fs => (k, jsonRoundTrip v) :: jsonRoundTripObj fs

end

namespace JsVal

/-- JavaScript truthiness of a value. -/
def truthy : JsVal → Bool
  | .num (.fin q) => decide (q ≠ 0)
  | .num .nan => false
  | .num _ => true
  | .str s => decide (s ≠ "")
  | .bool b => b
  | .null => false
  | .arr _ => true
  | .obj _ => true

/-- Property access `x.k` on a non-null value: `none` is `undefined`
(missing key, or any non-object receiver other than `null`).  On objects
parsed from JSON with a duplicated key the later binding wins, so we take
the last matching field. -/
def getField : JsVal → String → Option JsVal
  | .obj fs, k => ((fs.filter (fun p => p.1 = k)).getLast?).map Prod.snd
  | _, _ => none

end JsVal

/-- The tracker state as raw JavaScript values: after `importData` the
`this.vehicles` / `this.fuelRecords` fields hold whatever values were
parsed, so the stored collections are modelled as `JsVal`. -/
structure RawState where
  vehicles : JsVal
  records : JsVal
deriving Repr

/-- The vehicle object as a JavaScript value (fields in construction
order). -/
def Vehicle.toJs (v : Vehicle) : JsVal :=
  .obj [("id", .str v.id), ("name", .str v.name), ("fuelType", .str v.fuelType),
        ("createdAt", .str v.createdAt), ("totalDistance", .num v.totalDistance),
        ("totalFuelConsumed", .num v.totalFuelConsumed)]

/-- The fuel-record object as a JavaScript value (fields in construction
order). -/
def FuelRecord.toJs (r : FuelRecord) : JsVal :=
  .obj [("id", .str r.id), ("vehicleId", .str r.vehicleId),
        ("fuelAmount", .num r.fuelAmount), ("distance", .num r.distance),
        ("consumption", .num r.consumption), ("date", .str r.date),
        ("notes", .str r.notes), ("createdAt", .str r.createdAt)]

/-- The raw-value view of a typed tracker state. -/
def State.toRaw (s : State) : RawState :=
  { vehicles := .arr (s.vehicles.map Vehicle.toJs)
    records := .arr (s.fuelRecords.map FuelRecord.toJs) }

/-- `exportData()`: the object whose `JSON.stringify` the method returns;
`now` is the `exportedAt` timestamp. -/
def exportData (rs : RawState) (now : String) : JsVal :=
  .obj [("vehicles", rs.vehicles), ("records", rs.records), ("exportedAt", .str now)]

/-- `importData(jsonData)`.  The argument is the parse result of the
input text: `none` when `JSON.parse` throws.  Property access on the
parsed value throws a TypeError when it is `null` (caught by the same
handler as a parse failure); otherwise each collection is replaced when
the corresponding field is truthy.  Returns the new state together with
the parsed data the method returns. -/
def importData (rs : RawState) (input : Option JsVal) : Except String (RawState × JsVal) :=
  match input with
  | none => .error "Invalid JSON format for import"
  | some data =>
      match data with
      | .null => .error "Invalid JSON format for import"
      | _ =>
          let rs1 := match data.getField "vehicles" with
            | some vv => if vv.truthy then { rs with vehicles := vv } else rs
            | none => rs
          let rs2 := match data.getField "records" with
            | some rv => if rv.truthy then { rs1 with records := rv } else rs1
            | none => rs1
          .ok (rs2, data)

mutual

/-- No non-finite number occurs anywhere in the value. -/
def JsVal.allFinite : JsVal → Bool
  | .num n => n.isFin
  | .str _ => true
  | .bool _ => true
  | .null => true
  | .arr xs => JsVal.allFiniteList xs
  | .obj fs => JsVal.allFiniteObj fs

/-- No non-finite number occurs in any element of the list. -/
def JsVal.allFiniteList : List JsVal → Bool
  | [] => true
  | x :: xs => x.allFinite && JsVal.allFiniteList xs

/-- No non-finite number occurs in any field value. -/
def JsVal.allFiniteObj : List (String × JsVal) → Bool
  | [] => true
  | (_, v) :: fs => v.allFinite && JsVal.allFiniteObj fs

end

/-!
Operation sequences and the aggregate invariant.
-/

/-- A record-level operation of the tracker: a call to
`recordFuelConsumption`, `updateRecord` or `deleteRecord` with all of its
arguments (environment-supplied id/timestamp included). -/
inductive Op where
  | createRec (vehicleId : String) (fuelAmount distance : JNum)
      (date : Option String) (notes newId now : String)
  | updateRec (recordId : String) (u : RecordUpdates)
  | deleteRec (recordId : String)

/-- Run one operation; a thrown error (which in the source happens before
any mutation) leaves the state unchanged. -/
def applyOp (s : State) : Op → State
  | .createRec vid fa d dt nt nid now =>
      match recordFuelConsumption s vid fa d dt nt nid now with
      | .ok (s', _) => s'
      | .error _ => s
  | .updateRec rid u =>
      match updateRecord s rid u with
      | .ok (s', _) => s'
      | .error _ => s
  | .deleteRec rid =>
      match deleteRecord s rid with
      | .ok (s', _) => s'
      | .error _ => s

/-- Run a sequence of operations left to right. -/
def applyOps (s : State) (ops : List Op) : State :=
  ops.foldl applyOp s

/-- The numeric arguments of the operation denote finite numbers (its
`parseFloat` coercions produce neither NaN nor an infinity). -/
def finiteOp : Op → Prop
  | .createRec _ fa d _ _ _ _ => fa.isFin = true ∧ d.isFin = true
  | .updateRec _ u =>
      (match u.fuelAmount with | some x => x.isFin | none => true) = true ∧
      (match u.distance with | some x => x.isFin | none => true) = true
  | .deleteRec _ => True

instance : DecidablePred finiteOp := by
  intro op
  cases op <;> simp only [finiteOp] <;> infer_instance

/-- The operation is an `updateRecord` or `deleteRecord` call. -/
def isUpdDel : Op → Prop
  | .createRec _ _ _ _ _ _ _ => False
  | .updateRec _ _ => True
  | .deleteRec _ => True

/-- The spec aggregate equations for one vehicle: its running totals equal
the sums of the corresponding fields over the records whose `vehicleId`
matches its id. -/
def vehicleOk (rs : List FuelRecord) (v : Vehicle) : Prop :=
  v.totalDistance = sumDist (rs.filter (fun r => r.vehicleId = v.id)) ∧
  v.totalFuelConsumed = sumFuel (rs.filter (fun r => r.vehicleId = v.id))

instance (rs : List FuelRecord) (v : Vehicle) : Decidable (vehicleOk rs v) := by
  unfold vehicleOk; infer_instance

/-- The record's numeric fields used in aggregate maintenance are finite. -/
def recFinite (r : FuelRecord) : Prop :=
  r.distance.isFin = true ∧ r.fuelAmount.isFin = true

instance (r : FuelRecord) : Decidable (recFinite r) := by
  unfold recFinite; infer_instance

/-- The well-formedness invariant under which the aggregate equations are
preserved: pairwise-distinct vehicle ids, finite record fields, and the
aggregate equations themselves. -/
def TrackerInv (s : State) : Prop :=
  (s.vehicles.map Vehicle.id).Nodup ∧
  (∀ r ∈ s.fuelRecords, recFinite r) ∧
  ∀ v ∈ s.vehicles, vehicleOk s.fuelRecords v

instance (s : State) : Decidable (TrackerInv s) := by
  unfold TrackerInv; infer_instance

/-!
Arithmetic lemmas about `JNum`.
-/

/-- The rational denoted by a finite number (0 on non-finite values). -/
def JNum.toQ : JNum → ℚ
  | .fin a => a
  | _ => 0

namespace JNum

theorem isFin_iff {x : JNum} : x.isFin = true ↔ ∃ q : ℚ, x = fin q := by
  cases x <;> simp [isFin]

@[simp] theorem add_fin_fin (a b : ℚ) : (fin a).add (fin b) = fin (a + b) := rfl

@[simp] theorem nan_add (x : JNum) : nan.add x = nan := by cases x <;> rfl

@[simp] theorem add_nan (x : JNum) : x.add nan = nan := by cases x <;> rfl

@[simp] theorem sub_fin_fin (a b : ℚ) : (fin a).sub (fin b) = fin (a - b) := by
  simp [sub, neg, add, sub_eq_add_neg]

@[simp] theorem nan_sub (x : JNum) : nan.sub x = nan := by
  cases x <;> rfl

@[simp] theorem toQ_fin (a : ℚ) : (fin a).toQ = a := rfl

/-- Adding back a finite value that was just subtracted restores any
number (this fails for non-finite deltas, e.g. `inf - inf + inf = nan`). -/
theorem sub_add_self (t : JNum) (q : ℚ) : (t.sub (fin q)).add (fin q) = t := by
  cases t <;> simp [sub, neg, add]

/-- Once an aggregate is NaN, a delta adjustment keeps it NaN. -/
theorem nan_sub_add (x y : JNum) : (nan.sub x).add y = nan := by
  rw [nan_sub, nan_add]

end JNum

/-!
Lemmas about the record sums.
-/

theorem foldl_add_fin (g : FuelRecord → JNum) (rs : List FuelRecord) :
    ∀ (a : ℚ), (∀ r ∈ rs, (g r).isFin = true) →
      rs.foldl (fun acc r => acc.add (g r)) (JNum.fin a) =
        JNum.fin (a + (rs.map (fun r => (g r).toQ)).sum) := by
  induction rs with
  | nil => intro a _; simp
  | cons r rs ih =>
      intro a h
      obtain ⟨q, hq⟩ := JNum.isFin_iff.mp (h r (by simp))
      simp only [List.foldl_cons, hq, JNum.add_fin_fin, List.map_cons, List.sum_cons]
      rw [ih (a + q) (fun x hx => h x (by simp [hx]))]
      simp [JNum.toQ, add_assoc]

theorem sumDist_eq_fin (rs : List FuelRecord) (h : ∀ r ∈ rs, r.distance.isFin = true) :
    sumDist rs = .fin ((rs.map (fun r => r.distance.toQ)).sum) := by
  simpa [sumDist] using foldl_add_fin (fun r => r.distance) rs 0 h

theorem sumFuel_eq_fin (rs : List FuelRecord) (h : ∀ r ∈ rs, r.fuelAmount.isFin = true) :
    sumFuel rs = .fin ((rs.map (fun r => r.fuelAmount.toQ)).sum) := by
  simpa [sumFuel] using foldl_add_fin (fun r => r.fuelAmount) rs 0 h

theorem sumDist_append_single (xs : List FuelRecord) (r : FuelRecord) :
    sumDist (xs ++ [r]) = (sumDist xs).add r.distance := by
  simp [sumDist, List.foldl_append]

theorem sumFuel_append_single (xs : List FuelRecord) (r : FuelRecord) :
    sumFuel (xs ++ [r]) = (sumFuel xs).add r.fuelAmount := by
  simp [sumFuel, List.foldl_append]

/-!
Lemmas about `updateFirstVehicle`.
-/

theorem updateFirstVehicle_map_id (vid : String) (f : Vehicle → Vehicle)
    (hf : ∀ v, (f v).id = v.id) :
    ∀ vs : List Vehicle, (updateFirstVehicle vid f vs).map Vehicle.id = vs.map Vehicle.id
  | [] => rfl
  | v :: vs => by
      by_cases h : v.id = vid
      · simp [updateFirstVehicle, h, hf]
      · simp [updateFirstVehicle, h, updateFirstVehicle_map_id vid f hf vs]

theorem forall_updateFirstVehicle (vid : String) (f : Vehicle → Vehicle) (Q : Vehicle → Prop) :
    ∀ vs : List Vehicle, (vs.map Vehicle.id).Nodup →
      (∀ v ∈ vs, v.id = vid → Q (f v)) →
      (∀ v ∈ vs, v.id ≠ vid → Q v) →
      ∀ w ∈ updateFirstVehicle vid f vs, Q w := by
  intro vs
  induction vs with
  | nil => intro _ _ _ w hw; simp [updateFirstVehicle] at hw
  | cons v vs ih =>
      intro hnd hmatch hmiss w hw
      rw [List.map_cons, List.nodup_cons] at hnd
      by_cases h : v.id = vid
      · simp only [updateFirstVehicle, if_pos h] at hw
        rcases List.mem_cons.mp hw with hw | hw
        · subst hw; exact hmatch v (List.mem_cons_self v vs) h
        · refine hmiss w (List.mem_cons_of_mem v hw) ?_
          intro hwid
          have hmem : w.id ∈ List.map Vehicle.id vs := List.mem_map_of_mem Vehicle.id hw
          rw [hwid, ← h] at hmem
          exact hnd.1 hmem
      · simp only [updateFirstVehicle, if_neg h] at hw
        rcases List.mem_cons.mp hw with hw | hw
        · subst hw; exact hmiss w (List.mem_cons_self w vs) h
        · exact ih hnd.2 (fun x hx hxid => hmatch x (List.mem_cons_of_mem v hx) hxid)
            (fun x hx hxid => hmiss x (List.mem_cons_of_mem v hx) hxid) w hw

theorem updateFirstVehicle_find? (vid : String) (f : Vehicle → Vehicle)
    (hf : ∀ v, (f v).id = v.id) :
    ∀ vs : List Vehicle, ∀ v₀, vs.find? (fun v => v.id = vid) = some v₀ →
      (updateFirstVehicle vid f vs).find? (fun v => v.id = vid) = some (f v₀) := by
  intro vs
  induction vs with
  | nil => intro v₀ h; simp at h
  | cons v vs ih =>
      intro v₀ h
      by_cases hv : v.id = vid
      · rw [List.find?_cons_of_pos _ (by simp [hv])] at h
        injection h with h
        subst h
        simp only [updateFirstVehicle, if_pos hv]
        exact List.find?_cons_of_pos _ (by simp [hf, hv])
      · rw [List.find?_cons_of_neg _ (by simp [hv])] at h
        simp only [updateFirstVehicle, if_neg hv]
        rw [List.find?_cons_of_neg _ (by simp [hv])]
        exact ih v₀ h

theorem updateFirstVehicle_of_find?_none (vid : String) (f : Vehicle → Vehicle) :
    ∀ vs : List Vehicle, vs.find? (fun v => v.id = vid) = none →
      updateFirstVehicle vid f vs = vs := by
  intro vs
  induction vs with
  | nil => intro _; rfl
  | cons v vs ih =>
      intro h
      by_cases hv : v.id = vid
      · rw [List.find?_cons_of_pos _ (by simp [hv])] at h
        exact absurd h (by simp)
      · rw [List.find?_cons_of_neg _ (by simp [hv])] at h
        simp only [updateFirstVehicle, if_neg hv]
        rw [ih h]

theorem updateFirstVehicle_congr (vid : String) (f : Vehicle → Vehicle)
    (hf : ∀ v, f v = v) :
    ∀ vs : List Vehicle, updateFirstVehicle vid f vs = vs
  | [] => rfl
  | v :: vs => by
      by_cases h : v.id = vid <;>
        simp [updateFirstVehicle, h, hf, updateFirstVehicle_congr vid f hf vs]

theorem mem_updateFirstVehicle (vid : String) (f : Vehicle → Vehicle) :
    ∀ vs : List Vehicle, ∀ v ∈ vs,
      v ∈ updateFirstVehicle vid f vs ∨ f v ∈ updateFirstVehicle vid f vs := by
  intro vs
  induction vs with
  | nil => intro v hv; simp at hv
  | cons w vs ih =>
      intro v hv
      by_cases h : w.id = vid
      · simp only [updateFirstVehicle, if_pos h]
        rcases List.mem_cons.mp hv with hv | hv
        · subst hv; right; exact List.mem_cons_self _ _
        · left; exact List.mem_cons_of_mem _ hv
      · simp only [updateFirstVehicle, if_neg h]
        rcases List.mem_cons.mp hv with hv | hv
        · subst hv; left; exact List.mem_cons_self _ _
        · rcases ih v hv with h' | h'
          · left; exact List.mem_cons_of_mem _ h'
          · right; exact List.mem_cons_of_mem _ h'

/-!
Decomposition lemmas for the first-match list operations.
-/

theorem updateRecordList_spec (rid : String) (u : RecordUpdates) :
    ∀ (rs : List FuelRecord) (o n : FuelRecord) (rs' : List FuelRecord),
      updateRecordList rid u rs = some (o, n, rs') →
      ∃ pre post, rs = pre ++ o :: post ∧ rs' = pre ++ n :: post ∧
        (∀ r ∈ pre, ¬ r.id = rid) ∧ o.id = rid ∧
        n = recalcConsumption (patchRecord u o) := by
  intro rs
  induction rs with
  | nil => intro o n rs' h; simp [updateRecordList] at h
  | cons r rs ih =>
      intro o n rs' h
      by_cases hid : r.id = rid
      · simp only [updateRecordList, if_pos hid, Option.some.injEq, Prod.mk.injEq] at h
        obtain ⟨rfl, rfl, rfl⟩ := h
        exact ⟨[], rs, by simp, by simp, by simp, hid, rfl⟩
      · simp only [updateRecordList, if_neg hid] at h
        cases hrec : updateRecordList rid u rs with
        | none => rw [hrec] at h; simp at h
        | some t =>
            obtain ⟨o', n', rs''⟩ := t
            rw [hrec] at h
            simp only [Option.some.injEq, Prod.mk.injEq] at h
            obtain ⟨rfl, rfl, rfl⟩ := h
            obtain ⟨pre, post, e1, e2, e3, e4, e5⟩ := ih o' n' rs'' hrec
            refine ⟨r :: pre, post, by simp [e1], by simp [e2], ?_, e4, e5⟩
            intro x hx
            rcases List.mem_cons.mp hx with hx | hx
            · subst hx; exact hid
            · exact e3 x hx

theorem updateRecordList_isSome (rid : String) (u : RecordUpdates) :
    ∀ rs : List FuelRecord, (∃ r ∈ rs, r.id = rid) →
      ∃ o n rs', updateRecordList rid u rs = some (o, n, rs') := by
  intro rs
  induction rs with
  | nil => intro h; simp at h
  | cons r rs ih =>
      intro h
      by_cases hid : r.id = rid
      · exact ⟨r, recalcConsumption (patchRecord u r),
          recalcConsumption (patchRecord u r) :: rs, by
          simp only [updateRecordList, if_pos hid]⟩
      · obtain ⟨x, hx, hxid⟩ := h
        rcases List.mem_cons.mp hx with hx | hx
        · subst hx; exact absurd hxid hid
        · obtain ⟨o, n, rs', hres⟩ := ih ⟨x, hx, hxid⟩
          exact ⟨o, n, r :: rs', by simp only [updateRecordList, if_neg hid, hres]⟩

theorem removeFirstRecord_spec (rid : String) :
    ∀ (rs : List FuelRecord) (x : FuelRecord) (rest : List FuelRecord),
      removeFirstRecord rid rs = some (x, rest) →
      ∃ pre post, rs = pre ++ x :: post ∧ rest = pre ++ post ∧
        (∀ r ∈ pre, ¬ r.id = rid) ∧ x.id = rid := by
  intro rs
  induction rs with
  | nil => intro x rest h; simp [removeFirstRecord] at h
  | cons r rs ih =>
      intro x rest h
      by_cases hid : r.id = rid
      · simp only [removeFirstRecord, if_pos hid, Option.some.injEq, Prod.mk.injEq] at h
        obtain ⟨rfl, rfl⟩ := h
        exact ⟨[], rs, by simp, by simp, by simp, hid⟩
      · simp only [removeFirstRecord, if_neg hid] at h
        cases hrec : removeFirstRecord rid rs with
        | none => rw [hrec] at h; simp at h
        | some t =>
            obtain ⟨x', rest'⟩ := t
            rw [hrec] at h
            simp only [Option.some.injEq, Prod.mk.injEq] at h
            obtain ⟨rfl, rfl⟩ := h
            obtain ⟨pre, post, e1, e2, e3, e4⟩ := ih x' rest' hrec
            refine ⟨r :: pre, post, by simp [e1], by simp [e2], ?_, e4⟩
            intro y hy
            rcases List.mem_cons.mp hy with hy | hy
            · subst hy; exact hid
            · exact e3 y hy

theorem removeFirstRecord_isSome (rid : String) :
    ∀ rs : List FuelRecord, (∃ r ∈ rs, r.id = rid) →
      ∃ x rest, removeFirstRecord rid rs = some (x, rest) := by
  intro rs
  induction rs with
  | nil => intro h; simp at h
  | cons r rs ih =>
      intro h
      by_cases hid : r.id = rid
      · exact ⟨r, rs, by simp only [removeFirstRecord, if_pos hid]⟩
      · obtain ⟨x, hx, hxid⟩ := h
        rcases List.mem_cons.mp hx with hx | hx
        · subst hx; exact absurd hxid hid
        · obtain ⟨y, rest, hres⟩ := ih ⟨x, hx, hxid⟩
          exact ⟨y, r :: rest, by simp only [removeFirstRecord, if_neg hid, hres]⟩

theorem removeFirstVehicle_spec (vid : String) :
    ∀ (vs : List Vehicle) (x : Vehicle) (rest : List Vehicle),
      removeFirstVehicle vid vs = some (x, rest) →
      ∃ pre post, vs = pre ++ x :: post ∧ rest = pre ++ post ∧
        (∀ v ∈ pre, ¬ v.id = vid) ∧ x.id = vid := by
  intro vs
  induction vs with
  | nil => intro x rest h; simp [removeFirstVehicle] at h
  | cons v vs ih =>
      intro x rest h
      by_cases hid : v.id = vid
      · simp only [removeFirstVehicle, if_pos hid, Option.some.injEq, Prod.mk.injEq] at h
        obtain ⟨rfl, rfl⟩ := h
        exact ⟨[], vs, by simp, by simp, by simp, hid⟩
      · simp only [removeFirstVehicle, if_neg hid] at h
        cases hrec : removeFirstVehicle vid vs with
        | none => rw [hrec] at h; simp at h
        | some t =>
            obtain ⟨x', rest'⟩ := t
            rw [hrec] at h
            simp only [Option.some.injEq, Prod.mk.injEq] at h
            obtain ⟨rfl, rfl⟩ := h
            obtain ⟨pre, post, e1, e2, e3, e4⟩ := ih x' rest' hrec
            refine ⟨v :: pre, post, by simp [e1], by simp [e2], ?_, e4⟩
            intro y hy
            rcases List.mem_cons.mp hy with hy | hy
            · subst hy; exact hid
            · exact e3 y hy

theorem removeFirstVehicle_eq_none (vid : String) :
    ∀ vs : List Vehicle, removeFirstVehicle vid vs = none ↔ ∀ v ∈ vs, ¬ v.id = vid := by
  intro vs
  induction vs with
  | nil => simp [removeFirstVehicle]
  | cons v vs ih =>
      by_cases hid : v.id = vid
      · simp [removeFirstVehicle, hid]
      · simp only [removeFirstVehicle, if_neg hid]
        cases hrec : removeFirstVehicle vid vs with
        | none =>
            simp only [List.mem_cons]
            constructor
            · intro _ x hx
              rcases hx with hx | hx
              · subst hx; exact hid
              · exact (ih.mp hrec) x hx
            · intro _; trivial
        | some t =>
            obtain ⟨x, rest⟩ := t
            constructor
            · intro h; simp at h
            · intro h
              obtain ⟨pre, post, e1, _, _, e4⟩ := removeFirstVehicle_spec vid vs x rest hrec
              exact absurd e4 (h x (List.mem_cons_of_mem v (by rw [e1]; simp)))

theorem updateRecordList_eq_none (rid : String) (u : RecordUpdates) :
    ∀ rs : List FuelRecord, updateRecordList rid u rs = none ↔ ∀ r ∈ rs, ¬ r.id = rid := by
  intro rs
  induction rs with
  | nil => simp [updateRecordList]
  | cons r rs ih =>
      by_cases hid : r.id = rid
      · simp [updateRecordList, hid]
      · simp only [updateRecordList, if_neg hid]
        cases hrec : updateRecordList rid u rs with
        | none =>
            simp only [List.mem_cons]
            constructor
            · intro _ x hx
              rcases hx with hx | hx
              · subst hx; exact hid
              · exact (ih.mp hrec) x hx
            · intro _; trivial
        | some t =>
            obtain ⟨o, n, rs'⟩ := t
            constructor
            · intro h; simp at h
            · intro h
              obtain ⟨pre, post, e1, _, _, e4, _⟩ := updateRecordList_spec rid u rs o n rs' hrec
              exact absurd e4 (h o (List.mem_cons_of_mem r (by rw [e1]; simp)))

/-!
Field lemmas for the update patch, and unfolding equations for the
operations.
-/

theorem patched_id (u : RecordUpdates) (r : FuelRecord) :
    (recalcConsumption (patchRecord u r)).id = r.id := by
  unfold recalcConsumption patchRecord
  split <;> rfl

theorem patched_vehicleId (u : RecordUpdates) (r : FuelRecord) :
    (recalcConsumption (patchRecord u r)).vehicleId = r.vehicleId := by
  unfold recalcConsumption patchRecord
  split <;> rfl

theorem patched_createdAt (u : RecordUpdates) (r : FuelRecord) :
    (recalcConsumption (patchRecord u r)).createdAt = r.createdAt := by
  unfold recalcConsumption patchRecord
  split <;> rfl

theorem patched_fuelAmount (u : RecordUpdates) (r : FuelRecord) :
    (recalcConsumption (patchRecord u r)).fuelAmount = u.fuelAmount.getD r.fuelAmount := by
  unfold recalcConsumption patchRecord
  split <;> cases u.fuelAmount <;> rfl

theorem patched_distance (u : RecordUpdates) (r : FuelRecord) :
    (recalcConsumption (patchRecord u r)).distance = u.distance.getD r.distance := by
  unfold recalcConsumption patchRecord
  split <;> cases u.distance <;> rfl

theorem patched_date (u : RecordUpdates) (r : FuelRecord) :
    (recalcConsumption (patchRecord u r)).date = u.date.getD r.date := by
  unfold recalcConsumption patchRecord
  split <;> cases u.date <;> rfl

theorem patched_notes (u : RecordUpdates) (r : FuelRecord) :
    (recalcConsumption (patchRecord u r)).notes = u.notes.getD r.notes := by
  unfold recalcConsumption patchRecord
  split <;> cases u.notes <;> rfl

theorem recalcConsumption_distance (r : FuelRecord) :
    (recalcConsumption r).distance = r.distance := by
  unfold recalcConsumption
  split <;> rfl

theorem recalcConsumption_fuelAmount (r : FuelRecord) :
    (recalcConsumption r).fuelAmount = r.fuelAmount := by
  unfold recalcConsumption
  split <;> rfl

theorem patched_consumption (u : RecordUpdates) (r : FuelRecord) :
    (recalcConsumption (patchRecord u r)).consumption =
      if (patchRecord u r).distance.gtZero && (patchRecord u r).fuelAmount.gtZero then
        ((patchRecord u r).distance.div (patchRecord u r).fuelAmount).round2
      else r.consumption := by
  unfold recalcConsumption
  split <;> simp_all [patchRecord]

theorem recordFuelConsumption_eq_error (s : State) (vid : String) (fa d : JNum)
    (dt : Option String) (nt nid now : String)
    (h : s.vehicles.find? (fun v => v.id = vid) = none) :
    recordFuelConsumption s vid fa d dt nt nid now =
      .error ("Vehicle with ID " ++ vid ++ " not found") := by
  simp [recordFuelConsumption, h]

theorem recordFuelConsumption_eq_ok (s : State) (vid : String) (fa d : JNum)
    (dt : Option String) (nt nid now : String) (v₀ : Vehicle)
    (h : s.vehicles.find? (fun v => v.id = vid) = some v₀) :
    recordFuelConsumption s vid fa d dt nt nid now = .ok
      ({ vehicles := updateFirstVehicle vid
           (fun v => { v with
             totalDistance := v.totalDistance.add d
             totalFuelConsumed := v.totalFuelConsumed.add fa }) s.vehicles
         fuelRecords := s.fuelRecords ++
           [⟨nid, vid, fa, d, (d.div fa).round2,
             (match dt with | some x => x | none => now), nt, now⟩] },
       ⟨nid, vid, fa, d, (d.div fa).round2,
        (match dt with | some x => x | none => now), nt, now⟩) := by
  cases dt <;> simp [recordFuelConsumption, h]

theorem updateRecord_eq_error (s : State) (rid : String) (u : RecordUpdates)
    (h : updateRecordList rid u s.fuelRecords = none) :
    updateRecord s rid u = .error ("Record with ID " ++ rid ++ " not found") := by
  simp [updateRecord, h]

theorem updateRecord_eq_ok (s : State) (rid : String) (u : RecordUpdates)
    (o n : FuelRecord) (rs' : List FuelRecord)
    (h : updateRecordList rid u s.fuelRecords = some (o, n, rs')) :
    updateRecord s rid u = .ok
      ({ vehicles := updateFirstVehicle n.vehicleId (applyDelta o n) s.vehicles
         fuelRecords := rs' }, n) := by
  simp [updateRecord, h]

theorem deleteRecord_eq_error (s : State) (rid : String)
    (h : removeFirstRecord rid s.fuelRecords = none) :
    deleteRecord s rid = .error ("Record with ID " ++ rid ++ " not found") := by
  simp [deleteRecord, h]

theorem deleteRecord_eq_ok (s : State) (rid : String) (x : FuelRecord)
    (rest : List FuelRecord)
    (h : removeFirstRecord rid s.fuelRecords = some (x, rest)) :
    deleteRecord s rid = .ok
      ({ vehicles := updateFirstVehicle x.vehicleId
           (fun v => { v with
             totalDistance := v.totalDistance.sub x.distance
             totalFuelConsumed := v.totalFuelConsumed.sub x.fuelAmount }) s.vehicles
         fuelRecords := rest }, true) := by
  simp [deleteRecord, h]

theorem deleteVehicle_eq_error (s : State) (vid : String)
    (h : removeFirstVehicle vid s.vehicles = none) :
    deleteVehicle s vid = .error ("Vehicle with ID " ++ vid ++ " not found") := by
  simp [deleteVehicle, h]

theorem deleteVehicle_eq_ok (s : State) (vid : String) (x : Vehicle)
    (rest : List Vehicle)
    (h : removeFirstVehicle vid s.vehicles = some (x, rest)) :
    deleteVehicle s vid = .ok
      ({ vehicles := rest
         fuelRecords := s.fuelRecords.filter (fun r => ¬ r.vehicleId = vid) }, true) := by
  simp [deleteVehicle, h]

/-!
A generalized reduce-sum over a record field, with the delta lemmas the
aggregate invariant needs.
-/

/-- `rs.reduce((sum, r) => sum + g(r), 0)` for a numeric field selector. -/
def sumW (g : FuelRecord → JNum) (rs : List FuelRecord) : JNum :=
  rs.foldl (fun acc r => acc.add (g r)) (.fin 0)

theorem sumDist_eq_sumW (rs : List FuelRecord) :
    sumDist rs = sumW (fun r => r.distance) rs := rfl

theorem sumFuel_eq_sumW (rs : List FuelRecord) :
    sumFuel rs = sumW (fun r => r.fuelAmount) rs := rfl

theorem sumW_eq_fin (g : FuelRecord → JNum) (rs : List FuelRecord)
    (h : ∀ r ∈ rs, (g r).isFin = true) :
    sumW g rs = .fin ((rs.map (fun r => (g r).toQ)).sum) := by
  simpa [sumW] using foldl_add_fin g rs 0 h

theorem sumW_append_single (g : FuelRecord → JNum) (xs : List FuelRecord) (r : FuelRecord) :
    sumW g (xs ++ [r]) = (sumW g xs).add (g r) := by
  simp [sumW, List.foldl_append]

/-- Replacing one element of a list of finite-valued records changes the
sum by the delta of that element. -/
theorem sumW_replace (g : FuelRecord → JNum) (A B : List FuelRecord) (o n : FuelRecord)
    (hA : ∀ r ∈ A, (g r).isFin = true) (hB : ∀ r ∈ B, (g r).isFin = true)
    (hO : (g o).isFin = true) (hN : (g n).isFin = true) :
    ((sumW g (A ++ o :: B)).sub (g o)).add (g n) = sumW g (A ++ n :: B) := by
  obtain ⟨oq, hoq⟩ := JNum.isFin_iff.mp hO
  obtain ⟨nq, hnq⟩ := JNum.isFin_iff.mp hN
  have h1 : ∀ r ∈ A ++ o :: B, (g r).isFin = true := by
    intro r hr
    rcases List.mem_append.mp hr with hr | hr
    · exact hA r hr
    · rcases List.mem_cons.mp hr with hr | hr
      · subst hr; exact hO
      · exact hB r hr
  have h2 : ∀ r ∈ A ++ n :: B, (g r).isFin = true := by
    intro r hr
    rcases List.mem_append.mp hr with hr | hr
    · exact hA r hr
    · rcases List.mem_cons.mp hr with hr | hr
      · subst hr; exact hN
      · exact hB r hr
  rw [sumW_eq_fin g _ h1, sumW_eq_fin g _ h2, hoq, hnq, JNum.sub_fin_fin, JNum.add_fin_fin]
  congr 1
  simp only [List.map_append, List.sum_append, List.map_cons, List.sum_cons, hoq, hnq,
    JNum.toQ_fin]
  ring

/-- Removing one element of a list of finite-valued records subtracts its
contribution from the sum. -/
theorem sumW_remove (g : FuelRecord → JNum) (A B : List FuelRecord) (x : FuelRecord)
    (hA : ∀ r ∈ A, (g r).isFin = true) (hB : ∀ r ∈ B, (g r).isFin = true)
    (hX : (g x).isFin = true) :
    (sumW g (A ++ x :: B)).sub (g x) = sumW g (A ++ B) := by
  obtain ⟨xq, hxq⟩ := JNum.isFin_iff.mp hX
  have h1 : ∀ r ∈ A ++ x :: B, (g r).isFin = true := by
    intro r hr
    rcases List.mem_append.mp hr with hr | hr
    · exact hA r hr
    · rcases List.mem_cons.mp hr with hr | hr
      · subst hr; exact hX
      · exact hB r hr
  have h2 : ∀ r ∈ A ++ B, (g r).isFin = true := by
    intro r hr
    rcases List.mem_append.mp hr with hr | hr
    · exact hA r hr
    · exact hB r hr
  rw [sumW_eq_fin g _ h1, sumW_eq_fin g _ h2, hxq, JNum.sub_fin_fin]
  congr 1
  simp only [List.map_append, List.sum_append, List.map_cons, List.sum_cons, hxq,
    JNum.toQ_fin]
  ring

/-!
How the per-vehicle aggregate equations evolve when a record is appended,
replaced or removed.
-/

theorem vehicleOk_append_match (rs : List FuelRecord) (record : FuelRecord) (v : Vehicle)
    (h : vehicleOk rs v) (hvid : record.vehicleId = v.id) :
    vehicleOk (rs ++ [record])
      { v with totalDistance := v.totalDistance.add record.distance
               totalFuelConsumed := v.totalFuelConsumed.add record.fuelAmount } := by
  obtain ⟨hD, hF⟩ := h
  have hfilter : List.filter (fun r => decide (r.vehicleId = v.id)) [record] = [record] := by
    simp [hvid]
  constructor
  · show v.totalDistance.add record.distance =
      sumDist ((rs ++ [record]).filter (fun r => r.vehicleId = v.id))
    rw [List.filter_append, hfilter, sumDist_eq_sumW, sumW_append_single, ← sumDist_eq_sumW,
      ← hD]
  · show v.totalFuelConsumed.add record.fuelAmount =
      sumFuel ((rs ++ [record]).filter (fun r => r.vehicleId = v.id))
    rw [List.filter_append, hfilter, sumFuel_eq_sumW, sumW_append_single, ← sumFuel_eq_sumW,
      ← hF]

theorem vehicleOk_append_miss (rs : List FuelRecord) (record : FuelRecord) (v : Vehicle)
    (h : vehicleOk rs v) (hvid : ¬ record.vehicleId = v.id) :
    vehicleOk (rs ++ [record]) v := by
  obtain ⟨hD, hF⟩ := h
  have hfilter : List.filter (fun r => decide (r.vehicleId = v.id)) [record] = [] := by
    simp [hvid]
  constructor
  · rw [List.filter_append, hfilter, List.append_nil]; exact hD
  · rw [List.filter_append, hfilter, List.append_nil]; exact hF

theorem vehicleOk_update_match (pre post : List FuelRecord) (o n : FuelRecord) (v : Vehicle)
    (hfin_all : ∀ r ∈ pre ++ o :: post, recFinite r)
    (hnD : n.distance.isFin = true) (hnF : n.fuelAmount.isFin = true)
    (hmatch : o.vehicleId = v.id) (hnid : n.vehicleId = o.vehicleId)
    (h : vehicleOk (pre ++ o :: post) v) :
    vehicleOk (pre ++ n :: post) (applyDelta o n v) := by
  obtain ⟨hD, hF⟩ := h
  have hpo : decide (o.vehicleId = v.id) = true := by simp [hmatch]
  have hpn : decide (n.vehicleId = v.id) = true := by simp [hnid, hmatch]
  have e : (pre ++ o :: post).filter (fun r => decide (r.vehicleId = v.id)) =
      pre.filter (fun r => decide (r.vehicleId = v.id)) ++
        o :: post.filter (fun r => decide (r.vehicleId = v.id)) := by
    rw [List.filter_append,
      @List.filter_cons_of_pos _ (fun r => decide (r.vehicleId = v.id)) o post hpo]
  have e' : (pre ++ n :: post).filter (fun r => decide (r.vehicleId = v.id)) =
      pre.filter (fun r => decide (r.vehicleId = v.id)) ++
        n :: post.filter (fun r => decide (r.vehicleId = v.id)) := by
    rw [List.filter_append,
      @List.filter_cons_of_pos _ (fun r => decide (r.vehicleId = v.id)) n post hpn]
  have hpre : ∀ r ∈ pre.filter (fun r => decide (r.vehicleId = v.id)), recFinite r := by
    intro r hr
    exact hfin_all r (List.mem_append.mpr (Or.inl (List.mem_of_mem_filter hr)))
  have hpost : ∀ r ∈ post.filter (fun r => decide (r.vehicleId = v.id)), recFinite r := by
    intro r hr
    exact hfin_all r (List.mem_append.mpr (Or.inr (List.mem_cons_of_mem _
      (List.mem_of_mem_filter hr))))
  have hO : recFinite o := hfin_all o (List.mem_append.mpr (Or.inr (List.mem_cons_self _ _)))
  constructor
  · show (v.totalDistance.sub o.distance).add n.distance =
      sumDist ((pre ++ n :: post).filter (fun r => r.vehicleId = v.id))
    rw [e', hD, e, sumDist_eq_sumW, sumDist_eq_sumW]
    exact sumW_replace (fun r => r.distance) _ _ o n
      (fun r hr => (hpre r hr).1) (fun r hr => (hpost r hr).1) hO.1 hnD
  · show (v.totalFuelConsumed.sub o.fuelAmount).add n.fuelAmount =
      sumFuel ((pre ++ n :: post).filter (fun r => r.vehicleId = v.id))
    rw [e', hF, e, sumFuel_eq_sumW, sumFuel_eq_sumW]
    exact sumW_replace (fun r => r.fuelAmount) _ _ o n
      (fun r hr => (hpre r hr).2) (fun r hr => (hpost r hr).2) hO.2 hnF

theorem vehicleOk_update_miss (pre post : List FuelRecord) (o n : FuelRecord) (v : Vehicle)
    (hmiss : ¬ o.vehicleId = v.id) (hnid : n.vehicleId = o.vehicleId)
    (h : vehicleOk (pre ++ o :: post) v) :
    vehicleOk (pre ++ n :: post) v := by
  have hpo : ¬ decide (o.vehicleId = v.id) = true := by simp [hmiss]
  have hpn : ¬ decide (n.vehicleId = v.id) = true := by simp [hnid, hmiss]
  have e : (pre ++ n :: post).filter (fun r => decide (r.vehicleId = v.id)) =
      (pre ++ o :: post).filter (fun r => decide (r.vehicleId = v.id)) := by
    rw [List.filter_append, List.filter_append,
      @List.filter_cons_of_neg _ (fun r => decide (r.vehicleId = v.id)) o post hpo,
      @List.filter_cons_of_neg _ (fun r => decide (r.vehicleId = v.id)) n post hpn]
  obtain ⟨hD, hF⟩ := h
  exact ⟨by rw [e]; exact hD, by rw [e]; exact hF⟩

theorem vehicleOk_remove_match (pre post : List FuelRecord) (x : FuelRecord) (v : Vehicle)
    (hfin_all : ∀ r ∈ pre ++ x :: post, recFinite r)
    (hmatch : x.vehicleId = v.id)
    (h : vehicleOk (pre ++ x :: post) v) :
    vehicleOk (pre ++ post)
      { v with totalDistance := v.totalDistance.sub x.distance
               totalFuelConsumed := v.totalFuelConsumed.sub x.fuelAmount } := by
  obtain ⟨hD, hF⟩ := h
  have hpx : decide (x.vehicleId = v.id) = true := by simp [hmatch]
  have e : (pre ++ x :: post).filter (fun r => decide (r.vehicleId = v.id)) =
      pre.filter (fun r => decide (r.vehicleId = v.id)) ++
        x :: post.filter (fun r => decide (r.vehicleId = v.id)) := by
    rw [List.filter_append,
      @List.filter_cons_of_pos _ (fun r => decide (r.vehicleId = v.id)) x post hpx]
  have e' : (pre ++ post).filter (fun r => decide (r.vehicleId = v.id)) =
      pre.filter (fun r => decide (r.vehicleId = v.id)) ++
        post.filter (fun r => decide (r.vehicleId = v.id)) := List.filter_append _ _
  have hpre : ∀ r ∈ pre.filter (fun r => decide (r.vehicleId = v.id)), recFinite r := by
    intro r hr
    exact hfin_all r (List.mem_append.mpr (Or.inl (List.mem_of_mem_filter hr)))
  have hpost : ∀ r ∈ post.filter (fun r => decide (r.vehicleId = v.id)), recFinite r := by
    intro r hr
    exact hfin_all r (List.mem_append.mpr (Or.inr (List.mem_cons_of_mem _
      (List.mem_of_mem_filter hr))))
  have hX : recFinite x := hfin_all x (List.mem_append.mpr (Or.inr (List.mem_cons_self _ _)))
  constructor
  · show v.totalDistance.sub x.distance =
      sumDist ((pre ++ post).filter (fun r => r.vehicleId = v.id))
    rw [e', hD, e, sumDist_eq_sumW, sumDist_eq_sumW]
    exact sumW_remove (fun r => r.distance) _ _ x
      (fun r hr => (hpre r hr).1) (fun r hr => (hpost r hr).1) hX.1
  · show v.totalFuelConsumed.sub x.fuelAmount =
      sumFuel ((pre ++ post).filter (fun r => r.vehicleId = v.id))
    rw [e', hF, e, sumFuel_eq_sumW, sumFuel_eq_sumW]
    exact sumW_remove (fun r => r.fuelAmount) _ _ x
      (fun r hr => (hpre r hr).2) (fun r hr => (hpost r hr).2) hX.2

theorem vehicleOk_remove_miss (pre post : List FuelRecord) (x : FuelRecord) (v : Vehicle)
    (hmiss : ¬ x.vehicleId = v.id)
    (h : vehicleOk (pre ++ x :: post) v) :
    vehicleOk (pre ++ post) v := by
  have hpx : ¬ decide (x.vehicleId = v.id) = true := by simp [hmiss]
  have e : (pre ++ post).filter (fun r => decide (r.vehicleId = v.id)) =
      (pre ++ x :: post).filter (fun r => decide (r.vehicleId = v.id)) := by
    rw [List.filter_append, List.filter_append,
      @List.filter_cons_of_neg _ (fun r => decide (r.vehicleId = v.id)) x post hpx]
  obtain ⟨hD, hF⟩ := h
  exact ⟨by rw [e]; exact hD, by rw [e]; exact hF⟩

/-!
Preservation of the invariant by every record operation.
-/

theorem inv_applyOp (s : State) (op : Op) (hInv : TrackerInv s) (hop : finiteOp op) :
    TrackerInv (applyOp s op) := by
  obtain ⟨hnd, hfin, hok⟩ := hInv
  cases op with
  | createRec vid fa d dt nt nid now =>
      obtain ⟨hfa, hd⟩ := hop
      cases hfind : s.vehicles.find? (fun v => v.id = vid) with
      | none =>
          simp only [applyOp, recordFuelConsumption_eq_error s vid fa d dt nt nid now hfind]
          exact ⟨hnd, hfin, hok⟩
      | some v₀ =>
          simp only [applyOp, recordFuelConsumption_eq_ok s vid fa d dt nt nid now v₀ hfind]
          refine ⟨?_, ?_, ?_⟩
          · dsimp only
            rw [updateFirstVehicle_map_id vid
              (fun v => { v with totalDistance := v.totalDistance.add d
                                 totalFuelConsumed := v.totalFuelConsumed.add fa })
              (fun v => rfl) s.vehicles]
            exact hnd
          · intro r hr
            rcases List.mem_append.mp hr with hr | hr
            · exact hfin r hr
            · rcases List.mem_cons.mp hr with hr | hr
              · subst hr; exact ⟨hd, hfa⟩
              · simp at hr
          · refine forall_updateFirstVehicle vid _
              (fun w => vehicleOk (s.fuelRecords ++
                [⟨nid, vid, fa, d, (d.div fa).round2,
                  (match dt with | some x => x | none => now), nt, now⟩]) w)
              s.vehicles hnd ?_ ?_
            · intro v hv hvid
              exact vehicleOk_append_match s.fuelRecords _ v (hok v hv) hvid.symm
            · intro v hv hvid
              exact vehicleOk_append_miss s.fuelRecords _ v (hok v hv)
                (fun h => hvid h.symm)
  | updateRec rid u =>
      obtain ⟨huf, hud⟩ := hop
      cases hupd : updateRecordList rid u s.fuelRecords with
      | none =>
          simp only [applyOp, updateRecord_eq_error s rid u hupd]
          exact ⟨hnd, hfin, hok⟩
      | some t =>
          obtain ⟨o, n, rs'⟩ := t
          simp only [applyOp, updateRecord_eq_ok s rid u o n rs' hupd]
          obtain ⟨pre, post, e1, e2, e3, e4, e5⟩ :=
            updateRecordList_spec rid u s.fuelRecords o n rs' hupd
          have ho_mem : o ∈ s.fuelRecords := by rw [e1]; simp
          obtain ⟨hoD, hoF⟩ := hfin o ho_mem
          have hnD : n.distance.isFin = true := by
            rw [e5, patched_distance]
            cases hu : u.distance with
            | some x => rw [hu] at hud; simpa using hud
            | none => simpa using hoD
          have hnF : n.fuelAmount.isFin = true := by
            rw [e5, patched_fuelAmount]
            cases hu : u.fuelAmount with
            | some x => rw [hu] at huf; simpa using huf
            | none => simpa using hoF
          have hnid : n.vehicleId = o.vehicleId := by rw [e5]; exact patched_vehicleId u o
          refine ⟨?_, ?_, ?_⟩
          · dsimp only
            rw [updateFirstVehicle_map_id n.vehicleId (applyDelta o n) (fun v => rfl)
              s.vehicles]
            exact hnd
          · intro r hr
            rw [e2] at hr
            rcases List.mem_append.mp hr with hr | hr
            · exact hfin r (by rw [e1]; exact List.mem_append.mpr (Or.inl hr))
            · rcases List.mem_cons.mp hr with hr | hr
              · subst hr; exact ⟨hnD, hnF⟩
              · exact hfin r
                  (by rw [e1]; exact List.mem_append.mpr (Or.inr (List.mem_cons_of_mem _ hr)))
          · refine forall_updateFirstVehicle n.vehicleId _
              (fun w => vehicleOk rs' w) s.vehicles hnd ?_ ?_
            · intro v hv hvid
              refine e2.symm ▸ vehicleOk_update_match pre post o n v
                (e1 ▸ hfin) hnD hnF ?_ hnid (e1 ▸ hok v hv)
              rw [← hnid, ← hvid]
            · intro v hv hvid
              refine e2.symm ▸ vehicleOk_update_miss pre post o n v ?_ hnid
                (e1 ▸ hok v hv)
              intro h
              exact hvid (h.symm.trans hnid.symm)
  | deleteRec rid =>
      cases hdel : removeFirstRecord rid s.fuelRecords with
      | none =>
          simp only [applyOp, deleteRecord_eq_error s rid hdel]
          exact ⟨hnd, hfin, hok⟩
      | some t =>
          obtain ⟨x, rest⟩ := t
          simp only [applyOp, deleteRecord_eq_ok s rid x rest hdel]
          obtain ⟨pre, post, e1, e2, e3, e4⟩ :=
            removeFirstRecord_spec rid s.fuelRecords x rest hdel
          refine ⟨?_, ?_, ?_⟩
          · dsimp only
            rw [updateFirstVehicle_map_id x.vehicleId
              (fun v => { v with totalDistance := v.totalDistance.sub x.distance
                                 totalFuelConsumed := v.totalFuelConsumed.sub x.fuelAmount })
              (fun v => rfl) s.vehicles]
            exact hnd
          · intro r hr
            rw [e2] at hr
            rcases List.mem_append.mp hr with hr | hr
            · exact hfin r (by rw [e1]; exact List.mem_append.mpr (Or.inl hr))
            · exact hfin r
                (by rw [e1]; exact List.mem_append.mpr (Or.inr (List.mem_cons_of_mem _ hr)))
          · refine forall_updateFirstVehicle x.vehicleId _
              (fun w => vehicleOk rest w) s.vehicles hnd ?_ ?_
            · intro v hv hvid
              exact e2.symm ▸ vehicleOk_remove_match pre post x v
                (e1 ▸ hfin) hvid.symm (e1 ▸ hok v hv)
            · intro v hv hvid
              exact e2.symm ▸ vehicleOk_remove_miss pre post x v
                (fun h => hvid h.symm) (e1 ▸ hok v hv)

/-- The invariant is preserved along any sequence of finite-input record
operations. -/
theorem inv_applyOps (s : State) (ops : List Op) (hInv : TrackerInv s)
    (hops : ∀ op ∈ ops, finiteOp op) : TrackerInv (applyOps s ops) := by
  induction ops generalizing s with
  | nil => exact hInv
  | cons op ops ih =>
      exact ih (applyOp s op) (inv_applyOp s op hInv (hops op (by simp)))
        (fun x hx => hops x (by simp [hx]))

/-!
Claim C1.
-/

/-- Claim C1 (amended): starting from a state whose vehicle ids are
pairwise distinct, whose records all carry finite `distance` and
`fuelAmount`, and which satisfies the aggregate equations, after any
sequence of `recordFuelConsumption` / `updateRecord` / `deleteRecord`
operations whose numeric inputs are finite, every vehicle's
`totalDistance` equals the sum of `distance` over the fuel records whose
`vehicleId` equals its id, and its `totalFuelConsumed` equals the sum of
`fuelAmount` over those records. -/
theorem claim_C1_aggregate_invariant (s : State) (ops : List Op)
    (hInv : TrackerInv s) (hops : ∀ op ∈ ops, finiteOp op) :
    ∀ v ∈ (applyOps s ops).vehicles,
      v.totalDistance =
        sumDist ((applyOps s ops).fuelRecords.filter (fun r => r.vehicleId = v.id)) ∧
      v.totalFuelConsumed =
        sumFuel ((applyOps s ops).fuelRecords.filter (fun r => r.vehicleId = v.id)) :=
  (inv_applyOps s ops hInv hops).2.2

/-- Witness for claim C1: a concrete run (create, then patch the distance,
then delete the record) from a concrete one-vehicle state, with both
hypotheses discharged. -/
theorem claim_C1_aggregate_invariant_witness :
    TrackerInv (State.mk [⟨"v1", "Car A", "petrol", "", .fin 0, .fin 0⟩] []) ∧
    (∀ op ∈ ([Op.createRec "v1" (.fin 10) (.fin 150) none "" "r1" "T",
        Op.updateRec "r1" ⟨none, some (.fin 200), none, none⟩,
        Op.deleteRec "r1"] : List Op), finiteOp op) ∧
    ∀ v ∈ (applyOps (State.mk [⟨"v1", "Car A", "petrol", "", .fin 0, .fin 0⟩] [])
        [Op.createRec "v1" (.fin 10) (.fin 150) none "" "r1" "T",
         Op.updateRec "r1" ⟨none, some (.fin 200), none, none⟩,
         Op.deleteRec "r1"]).vehicles,
      v.totalDistance =
        sumDist ((applyOps (State.mk [⟨"v1", "Car A", "petrol", "", .fin 0, .fin 0⟩] [])
          [Op.createRec "v1" (.fin 10) (.fin 150) none "" "r1" "T",
           Op.updateRec "r1" ⟨none, some (.fin 200), none, none⟩,
           Op.deleteRec "r1"]).fuelRecords.filter (fun r => r.vehicleId = v.id)) ∧
      v.totalFuelConsumed =
        sumFuel ((applyOps (State.mk [⟨"v1", "Car A", "petrol", "", .fin 0, .fin 0⟩] [])
          [Op.createRec "v1" (.fin 10) (.fin 150) none "" "r1" "T",
           Op.updateRec "r1" ⟨none, some (.fin 200), none, none⟩,
           Op.deleteRec "r1"]).fuelRecords.filter (fun r => r.vehicleId = v.id)) :=
  have h1 : TrackerInv (State.mk [⟨"v1", "Car A", "petrol", "", .fin 0, .fin 0⟩] []) := by
    norm_num [TrackerInv, vehicleOk, recFinite, sumDist, sumFuel, JNum.isFin]
  have h2 : ∀ op ∈ ([Op.createRec "v1" (.fin 10) (.fin 150) none "" "r1" "T",
      Op.updateRec "r1" ⟨none, some (.fin 200), none, none⟩,
      Op.deleteRec "r1"] : List Op), finiteOp op := by
    norm_num [finiteOp, JNum.isFin]
  ⟨h1, h2, claim_C1_aggregate_invariant _ _ h1 h2⟩

/-- Counterexample to claim C1 as stated: `addVehicle` never checks id
uniqueness, so a state can hold two vehicles with id "v1"; it satisfies
the claimed aggregate equations (all totals and sums are zero), yet after
one finite-input `recordFuelConsumption` referencing "v1" the second
vehicle still has zero totals while the records with its id sum to 150. -/
theorem claim_C1_counterexample :
    (∀ v ∈ (State.mk [⟨"v1", "Car A", "petrol", "", .fin 0, .fin 0⟩,
        ⟨"v1", "Car B", "petrol", "", .fin 0, .fin 0⟩] []).vehicles,
      v.totalDistance =
        sumDist ((State.mk [⟨"v1", "Car A", "petrol", "", .fin 0, .fin 0⟩,
          ⟨"v1", "Car B", "petrol", "", .fin 0, .fin 0⟩]
          []).fuelRecords.filter (fun r => r.vehicleId = v.id)) ∧
      v.totalFuelConsumed =
        sumFuel ((State.mk [⟨"v1", "Car A", "petrol", "", .fin 0, .fin 0⟩,
          ⟨"v1", "Car B", "petrol", "", .fin 0, .fin 0⟩]
          []).fuelRecords.filter (fun r => r.vehicleId = v.id))) ∧
    ∃ v ∈ (applyOp (State.mk [⟨"v1", "Car A", "petrol", "", .fin 0, .fin 0⟩,
        ⟨"v1", "Car B", "petrol", "", .fin 0, .fin 0⟩] [])
        (.createRec "v1" (.fin 10) (.fin 150) none "" "r1" "T")).vehicles,
      ¬ v.totalDistance =
          sumDist ((applyOp (State.mk [⟨"v1", "Car A", "petrol", "", .fin 0, .fin 0⟩,
            ⟨"v1", "Car B", "petrol", "", .fin 0, .fin 0⟩] [])
            (.createRec "v1" (.fin 10) (.fin 150) none "" "r1" "T")).fuelRecords.filter
            (fun r => r.vehicleId = v.id)) := by
  constructor
  · intro v hv
    simp only [List.mem_cons, List.not_mem_nil, or_false] at hv
    rcases hv with rfl | rfl <;> norm_num [sumDist, sumFuel]
  · have happ : applyOp (State.mk [⟨"v1", "Car A", "petrol", "", .fin 0, .fin 0⟩,
        ⟨"v1", "Car B", "petrol", "", .fin 0, .fin 0⟩] [])
        (.createRec "v1" (.fin 10) (.fin 150) none "" "r1" "T") =
        State.mk [⟨"v1", "Car A", "petrol", "", .fin 150, .fin 10⟩,
          ⟨"v1", "Car B", "petrol", "", .fin 0, .fin 0⟩]
          [⟨"r1", "v1", .fin 10, .fin 150, .fin 15, "T", "", "T"⟩] := by
      norm_num [applyOp, recordFuelConsumption, List.find?, updateFirstVehicle, JNum.div,
        JNum.round2, JNum.add, round_eq]
    rw [happ]
    refine ⟨⟨"v1", "Car B", "petrol", "", .fin 0, .fin 0⟩, by simp, ?_⟩
    intro hD
    norm_num [sumDist, sumFuel, JNum.add] at hD

/-!
Claim C2.
-/

/-- Claim C2: `recordFuelConsumption` fails with the not-found error (and
leaves the state unchanged) when no vehicle carries the id; otherwise it
appends a record whose consumption is `round2(distance / fuelAmount)` and
adds `distance` / `fuelAmount` to the owning vehicle's running totals; in
the concrete scenario addVehicle("v1","Car A") then
recordFuelConsumption("v1", 10, 150) the record's consumption is 15 and
the vehicle totals are 150 and 10. -/
theorem claim_C2_recordFuelConsumption (s : State) (vid : String) (fa d : JNum)
    (dt : Option String) (nt nid now : String) :
    (s.vehicles.find? (fun v => v.id = vid) = none →
      recordFuelConsumption s vid fa d dt nt nid now =
        .error ("Vehicle with ID " ++ vid ++ " not found") ∧
      applyOp s (.createRec vid fa d dt nt nid now) = s) ∧
    (∀ v₀, s.vehicles.find? (fun v => v.id = vid) = some v₀ →
      ∃ s' rec, recordFuelConsumption s vid fa d dt nt nid now = .ok (s', rec) ∧
        rec.consumption = (d.div fa).round2 ∧
        rec.vehicleId = vid ∧ rec.fuelAmount = fa ∧ rec.distance = d ∧
        s'.fuelRecords = s.fuelRecords ++ [rec] ∧
        s'.vehicles.find? (fun v => v.id = vid) = some
          { v₀ with totalDistance := v₀.totalDistance.add d
                    totalFuelConsumed := v₀.totalFuelConsumed.add fa }) ∧
    recordFuelConsumption ((addVehicle (State.mk [] []) "v1" "Car A").1)
        "v1" (.fin 10) (.fin 150) none "" "r1" "T" =
      .ok (State.mk [⟨"v1", "Car A", "petrol", "", .fin 150, .fin 10⟩]
        [⟨"r1", "v1", .fin 10, .fin 150, .fin 15, "T", "", "T"⟩],
        ⟨"r1", "v1", .fin 10, .fin 150, .fin 15, "T", "", "T"⟩) := by
  refine ⟨?_, ?_, ?_⟩
  · intro hfind
    refine ⟨recordFuelConsumption_eq_error s vid fa d dt nt nid now hfind, ?_⟩
    simp [applyOp, recordFuelConsumption_eq_error s vid fa d dt nt nid now hfind]
  · intro v₀ hfind
    refine ⟨_, _, recordFuelConsumption_eq_ok s vid fa d dt nt nid now v₀ hfind,
      rfl, rfl, rfl, rfl, rfl, ?_⟩
    exact updateFirstVehicle_find? vid
      (fun v => { v with totalDistance := v.totalDistance.add d
                         totalFuelConsumed := v.totalFuelConsumed.add fa })
      (fun v => rfl) s.vehicles v₀ hfind
  · norm_num [addVehicle, recordFuelConsumption, List.find?, updateFirstVehicle,
      JNum.div, JNum.round2, JNum.add, round_eq]

/-- Witness for claim C2: the not-found branch at a concrete empty state. -/
theorem claim_C2_recordFuelConsumption_witness :
    recordFuelConsumption (State.mk [] []) "v1" (.fin 10) (.fin 150) none "" "r1" "T" =
      .error ("Vehicle with ID " ++ "v1" ++ " not found") ∧
    applyOp (State.mk [] [])
      (.createRec "v1" (.fin 10) (.fin 150) none "" "r1" "T") = State.mk [] [] :=
  (claim_C2_recordFuelConsumption (State.mk [] []) "v1" (.fin 10) (.fin 150)
    none "" "r1" "T").1 rfl

/-!
Claim C3.
-/

/-- Claim C3: `updateRecord` overwrites exactly the fields present in the
patch, recomputes `consumption` only when the patched `distance` and
`fuelAmount` are both positive (keeping the stale value otherwise), and
adjusts the owning vehicle's aggregates by the delta; in the concrete
scenario the patched record has consumption 20 and the vehicle's
totalDistance is 200, not 350. -/
theorem claim_C3_updateRecord (s : State) (rid : String) (u : RecordUpdates)
    (o n : FuelRecord) (rs' : List FuelRecord)
    (h : updateRecordList rid u s.fuelRecords = some (o, n, rs')) :
    updateRecord s rid u = .ok
      ({ vehicles := updateFirstVehicle n.vehicleId (applyDelta o n) s.vehicles
         fuelRecords := rs' }, n) ∧
    n.fuelAmount = u.fuelAmount.getD o.fuelAmount ∧
    n.distance = u.distance.getD o.distance ∧
    n.date = u.date.getD o.date ∧
    n.notes = u.notes.getD o.notes ∧
    n.id = o.id ∧ n.vehicleId = o.vehicleId ∧ n.createdAt = o.createdAt ∧
    n.consumption = (if n.distance.gtZero && n.fuelAmount.gtZero then
      (n.distance.div n.fuelAmount).round2 else o.consumption) ∧
    (∀ v₀, s.vehicles.find? (fun v => v.id = n.vehicleId) = some v₀ →
      (updateFirstVehicle n.vehicleId (applyDelta o n) s.vehicles).find?
          (fun v => v.id = n.vehicleId) = some (applyDelta o n v₀)) ∧
    updateRecord (State.mk [⟨"v1", "Car A", "petrol", "", .fin 150, .fin 10⟩]
        [⟨"r1", "v1", .fin 10, .fin 150, .fin 15, "T", "", "T"⟩]) "r1"
        ⟨none, some (.fin 200), none, none⟩ =
      .ok (State.mk [⟨"v1", "Car A", "petrol", "", .fin 200, .fin 10⟩]
        [⟨"r1", "v1", .fin 10, .fin 200, .fin 20, "T", "", "T"⟩],
        ⟨"r1", "v1", .fin 10, .fin 200, .fin 20, "T", "", "T"⟩) := by
  obtain ⟨pre, post, e1, e2, e3, e4, e5⟩ := updateRecordList_spec rid u s.fuelRecords o n rs' h
  have hpd : (patchRecord u o).distance = n.distance := by
    rw [e5, recalcConsumption_distance]
  have hpf : (patchRecord u o).fuelAmount = n.fuelAmount := by
    rw [e5, recalcConsumption_fuelAmount]
  refine ⟨updateRecord_eq_ok s rid u o n rs' h, ?_, ?_, ?_, ?_, ?_, ?_, ?_, ?_, ?_, ?_⟩
  · rw [e5, patched_fuelAmount]
  · rw [e5, patched_distance]
  · rw [e5, patched_date]
  · rw [e5, patched_notes]
  · rw [e5, patched_id]
  · rw [e5, patched_vehicleId]
  · rw [e5, patched_createdAt]
  · have hc : n.consumption =
        if (patchRecord u o).distance.gtZero && (patchRecord u o).fuelAmount.gtZero then
          ((patchRecord u o).distance.div (patchRecord u o).fuelAmount).round2
        else o.consumption := by
      rw [e5]; exact patched_consumption u o
    rw [hc, hpd, hpf]
  · intro v₀ hfind
    exact updateFirstVehicle_find? n.vehicleId (applyDelta o n) (fun v => rfl)
      s.vehicles v₀ hfind
  · norm_num [updateRecord, updateRecordList, patchRecord, recalcConsumption, applyDelta,
      updateFirstVehicle, JNum.div, JNum.round2, JNum.add, JNum.sub, JNum.neg, JNum.gtZero,
      round_eq]

/-- Witness for claim C3: the field equations at the concrete scenario
input (the patch only carries a distance, so fuelAmount is kept). -/
theorem claim_C3_updateRecord_witness :
    (⟨"r1", "v1", .fin 10, .fin 200, .fin 20, "T", "", "T"⟩ : FuelRecord).fuelAmount =
      (none : Option JNum).getD
        (⟨"r1", "v1", .fin 10, .fin 150, .fin 15, "T", "", "T"⟩ : FuelRecord).fuelAmount :=
  (claim_C3_updateRecord
    (State.mk [⟨"v1", "Car A", "petrol", "", .fin 150, .fin 10⟩]
      [⟨"r1", "v1", .fin 10, .fin 150, .fin 15, "T", "", "T"⟩]) "r1"
    ⟨none, some (.fin 200), none, none⟩
    ⟨"r1", "v1", .fin 10, .fin 150, .fin 15, "T", "", "T"⟩
    ⟨"r1", "v1", .fin 10, .fin 200, .fin 20, "T", "", "T"⟩
    [⟨"r1", "v1", .fin 10, .fin 200, .fin 20, "T", "", "T"⟩]
    (by norm_num [updateRecordList, patchRecord, recalcConsumption, JNum.gtZero,
      JNum.div, JNum.round2, round_eq])).2.1

/-!
Claim C4.
-/

theorem filter_match_of_filter_not (rs : List FuelRecord) (vid : String) :
    (rs.filter (fun r => ¬ r.vehicleId = vid)).filter (fun r => r.vehicleId = vid) = [] := by
  induction rs with
  | nil => rfl
  | cons r rs ih =>
      by_cases h : r.vehicleId = vid <;> simp [List.filter_cons, h, ih]

/-- Claim C4: `deleteVehicle` fails with the not-found error when no
vehicle carries the id; otherwise it removes every fuel record whose
vehicleId matches, removes the vehicle, returns true, and a subsequent
`getVehicleRecords` for that id returns the empty list. -/
theorem claim_C4_deleteVehicle (s : State) (vid : String) :
    ((∀ v ∈ s.vehicles, ¬ v.id = vid) →
      deleteVehicle s vid = .error ("Vehicle with ID " ++ vid ++ " not found")) ∧
    (∀ x rest, removeFirstVehicle vid s.vehicles = some (x, rest) →
      deleteVehicle s vid = .ok
        ({ vehicles := rest
           fuelRecords := s.fuelRecords.filter (fun r => ¬ r.vehicleId = vid) }, true) ∧
      getVehicleRecords
        { vehicles := rest
          fuelRecords := s.fuelRecords.filter (fun r => ¬ r.vehicleId = vid) } vid = []) := by
  constructor
  · intro hall
    exact deleteVehicle_eq_error s vid ((removeFirstVehicle_eq_none vid s.vehicles).mpr hall)
  · intro x rest hrem
    refine ⟨deleteVehicle_eq_ok s vid x rest hrem, ?_⟩
    exact filter_match_of_filter_not s.fuelRecords vid

/-- Witness for claim C4: delete an existing vehicle from a concrete
two-vehicle state with one matching and one foreign record, and the
not-found branch on the leftover state. -/
theorem claim_C4_deleteVehicle_witness :
    (deleteVehicle (State.mk [⟨"v1", "Car A", "petrol", "", .fin 150, .fin 10⟩,
        ⟨"v2", "Car B", "diesel", "", .fin 0, .fin 0⟩]
        [⟨"r1", "v1", .fin 10, .fin 150, .fin 15, "T", "", "T"⟩,
         ⟨"r2", "v2", .fin 5, .fin 50, .fin 10, "T", "", "T"⟩]) "v1" = .ok
      ({ vehicles := [⟨"v2", "Car B", "diesel", "", .fin 0, .fin 0⟩]
         fuelRecords := (State.mk [⟨"v1", "Car A", "petrol", "", .fin 150, .fin 10⟩,
            ⟨"v2", "Car B", "diesel", "", .fin 0, .fin 0⟩]
            [⟨"r1", "v1", .fin 10, .fin 150, .fin 15, "T", "", "T"⟩,
             ⟨"r2", "v2", .fin 5, .fin 50, .fin 10, "T", "", "T"⟩]).fuelRecords.filter
            (fun r => ¬ r.vehicleId = "v1") }, true) ∧
      getVehicleRecords
        { vehicles := [⟨"v2", "Car B", "diesel", "", .fin 0, .fin 0⟩]
          fuelRecords := (State.mk [⟨"v1", "Car A", "petrol", "", .fin 150, .fin 10⟩,
            ⟨"v2", "Car B", "diesel", "", .fin 0, .fin 0⟩]
            [⟨"r1", "v1", .fin 10, .fin 150, .fin 15, "T", "", "T"⟩,
             ⟨"r2", "v2", .fin 5, .fin 50, .fin 10, "T", "", "T"⟩]).fuelRecords.filter
            (fun r => ¬ r.vehicleId = "v1") } "v1" = []) ∧
    deleteVehicle (State.mk [] []) "v1" =
      .error ("Vehicle with ID " ++ "v1" ++ " not found") :=
  ⟨(claim_C4_deleteVehicle (State.mk [⟨"v1", "Car A", "petrol", "", .fin 150, .fin 10⟩,
      ⟨"v2", "Car B", "diesel", "", .fin 0, .fin 0⟩]
      [⟨"r1", "v1", .fin 10, .fin 150, .fin 15, "T", "", "T"⟩,
       ⟨"r2", "v2", .fin 5, .fin 50, .fin 10, "T", "", "T"⟩]) "v1").2
      ⟨"v1", "Car A", "petrol", "", .fin 150, .fin 10⟩
      [⟨"v2", "Car B", "diesel", "", .fin 0, .fin 0⟩]
      (by norm_num [removeFirstVehicle]),
   (claim_C4_deleteVehicle (State.mk [] []) "v1").1 (by simp)⟩

/-!
Claim C7.
-/

theorem div_zero_round2_not_fin (d : JNum) :
    ((d.div (.fin 0)).round2).isFin = false := by
  cases d with
  | fin a =>
      simp only [JNum.div]
      rw [if_pos trivial]
      split_ifs <;> rfl
  | nan => rfl
  | inf => rfl
  | ninf => rfl

/-- Claim C7: for an existing vehicle, `recordFuelConsumption` with a zero
`fuelAmount` does not raise: the computed consumption
`round2(distance / 0)` is a non-finite value (NaN or a signed infinity)
that is nevertheless stored in the created record. -/
theorem claim_C7_zero_fuelAmount (s : State) (vid : String) (d : JNum)
    (dt : Option String) (nt nid now : String) (v₀ : Vehicle)
    (h : s.vehicles.find? (fun v => v.id = vid) = some v₀) :
    ∃ s' rec, recordFuelConsumption s vid (.fin 0) d dt nt nid now = .ok (s', rec) ∧
      rec.consumption = (d.div (.fin 0)).round2 ∧
      rec.consumption.isFin = false ∧
      rec ∈ s'.fuelRecords := by
  refine ⟨_, _, recordFuelConsumption_eq_ok s vid (.fin 0) d dt nt nid now v₀ h,
    rfl, ?_, ?_⟩
  · exact div_zero_round2_not_fin d
  · simp

/-- Witness for claim C7: fuelAmount 0 with distance 150 stores an
Infinity consumption. -/
theorem claim_C7_zero_fuelAmount_witness :
    ∃ s' rec, recordFuelConsumption
        (State.mk [⟨"v1", "Car A", "petrol", "", .fin 0, .fin 0⟩] [])
        "v1" (.fin 0) (.fin 150) none "" "r1" "T" = .ok (s', rec) ∧
      rec.consumption = ((JNum.fin 150).div (.fin 0)).round2 ∧
      rec.consumption.isFin = false ∧
      rec ∈ s'.fuelRecords :=
  claim_C7_zero_fuelAmount (State.mk [⟨"v1", "Car A", "petrol", "", .fin 0, .fin 0⟩] [])
    "v1" (.fin 150) none "" "r1" "T"
    ⟨"v1", "Car A", "petrol", "", .fin 0, .fin 0⟩ (by norm_num [List.find?])

/-!
Claim C8.
-/

/-- Claim C8 (amended): `getAverageConsumption` returns 0 for a vehicle
with no records; otherwise it returns `round2(sum distance / sum fuel)`
when the total fuel is strictly positive, and 0 whenever the total fuel is
not strictly positive (zero, negative, or NaN) — the code guards with
`totalLiters > 0`, not merely against an exactly-zero total. -/
theorem claim_C8_getAverageConsumption (s : State) (vid : String) :
    (getVehicleRecords s vid = [] → getAverageConsumption s vid = .fin 0) ∧
    (¬ getVehicleRecords s vid = [] →
      ((sumFuel (getVehicleRecords s vid)).gtZero = true →
        getAverageConsumption s vid =
          ((sumDist (getVehicleRecords s vid)).div
            (sumFuel (getVehicleRecords s vid))).round2) ∧
      ((sumFuel (getVehicleRecords s vid)).gtZero = false →
        getAverageConsumption s vid = .fin 0)) := by
  constructor
  · intro h
    simp [getAverageConsumption, h]
  · intro h
    have hlen : ¬ (getVehicleRecords s vid).length = 0 := by
      simpa [List.length_eq_zero] using h
    constructor <;> intro h2 <;> simp [getAverageConsumption, hlen, h2]

/-- Witness for claim C8: a vehicle with one 10-liter/150-km record has
average `round2(150 / 10)`, and an unknown vehicle id has average 0. -/
theorem claim_C8_getAverageConsumption_witness :
    (getAverageConsumption (State.mk [⟨"v1", "Car A", "petrol", "", .fin 150, .fin 10⟩]
        [⟨"r1", "v1", .fin 10, .fin 150, .fin 15, "T", "", "T"⟩]) "v1" =
      ((sumDist (getVehicleRecords (State.mk [⟨"v1", "Car A", "petrol", "", .fin 150, .fin 10⟩]
          [⟨"r1", "v1", .fin 10, .fin 150, .fin 15, "T", "", "T"⟩]) "v1")).div
        (sumFuel (getVehicleRecords (State.mk [⟨"v1", "Car A", "petrol", "", .fin 150, .fin 10⟩]
          [⟨"r1", "v1", .fin 10, .fin 150, .fin 15, "T", "", "T"⟩]) "v1"))).round2) ∧
    getAverageConsumption (State.mk [] []) "vX" = .fin 0 :=
  ⟨((claim_C8_getAverageConsumption (State.mk [⟨"v1", "Car A", "petrol", "", .fin 150, .fin 10⟩]
      [⟨"r1", "v1", .fin 10, .fin 150, .fin 15, "T", "", "T"⟩]) "v1").2
      (by norm_num [getVehicleRecords])).1
      (by norm_num [getVehicleRecords, sumFuel, JNum.add, JNum.gtZero]),
   (claim_C8_getAverageConsumption (State.mk [] []) "vX").1 rfl⟩

/-- Counterexample to claim C8 as stated: a reachable record with negative
fuelAmount -5 and distance 100 (the code never validates signs) gives a
total fuel of -5, which is not "exactly zero", so the claim demands
`round2(100 / -5) = -20`; the code's `totalLiters > 0` guard returns 0
instead. -/
theorem claim_C8_counterexample :
    getAverageConsumption (State.mk [⟨"v1", "Car A", "petrol", "", .fin 100, .fin (-5)⟩]
      [⟨"r1", "v1", .fin (-5), .fin 100, .fin (-20), "T", "", "T"⟩]) "v1" = .fin 0 ∧
    sumFuel (getVehicleRecords (State.mk [⟨"v1", "Car A", "petrol", "", .fin 100, .fin (-5)⟩]
      [⟨"r1", "v1", .fin (-5), .fin 100, .fin (-20), "T", "", "T"⟩]) "v1") = .fin (-5) ∧
    ¬ (JNum.fin (-5)) = .fin 0 ∧
    ((sumDist (getVehicleRecords (State.mk [⟨"v1", "Car A", "petrol", "", .fin 100, .fin (-5)⟩]
        [⟨"r1", "v1", .fin (-5), .fin 100, .fin (-20), "T", "", "T"⟩]) "v1")).div
      (sumFuel (getVehicleRecords (State.mk [⟨"v1", "Car A", "petrol", "", .fin 100, .fin (-5)⟩]
        [⟨"r1", "v1", .fin (-5), .fin 100, .fin (-20), "T", "", "T"⟩]) "v1"))).round2 =
      .fin (-20) ∧
    ¬ (JNum.fin 0) = .fin (-20) := by
  refine ⟨?_, ?_, by norm_num, ?_, by norm_num⟩
  · norm_num [getAverageConsumption, getVehicleRecords, sumDist, sumFuel, JNum.add,
      JNum.gtZero]
  · norm_num [getVehicleRecords, sumFuel, JNum.add]
  · norm_num [getVehicleRecords, sumDist, sumFuel, JNum.add, JNum.div, JNum.round2,
      round_eq]

/-!
Claim C9.
-/

theorem applyDelta_self (o : FuelRecord) (v : Vehicle)
    (hD : o.distance.isFin = true) (hF : o.fuelAmount.isFin = true) :
    applyDelta o o v = v := by
  obtain ⟨qd, hqd⟩ := JNum.isFin_iff.mp hD
  obtain ⟨qf, hqf⟩ := JNum.isFin_iff.mp hF
  unfold applyDelta
  rw [hqd, hqf, JNum.sub_add_self, JNum.sub_add_self]

theorem patchRecord_empty (r : FuelRecord) : patchRecord ⟨none, none, none, none⟩ r = r := rfl

theorem recalcConsumption_of_consistent (r : FuelRecord)
    (h : (r.distance.gtZero && r.fuelAmount.gtZero) = true →
      r.consumption = (r.distance.div r.fuelAmount).round2) :
    recalcConsumption r = r := by
  unfold recalcConsumption
  by_cases hc : (r.distance.gtZero && r.fuelAmount.gtZero) = true
  · rw [if_pos hc, ← h hc]
  · rw [if_neg hc]

/-- Claim C9 (amended): for an existing record whose stored `distance`
and `fuelAmount` are finite and whose stored `consumption` agrees with
`round2(distance / fuelAmount)` whenever both are positive, `updateRecord`
with an empty patch returns the state completely unchanged (every record
field and every vehicle aggregate included). -/
theorem claim_C9_empty_patch (s : State) (rid : String)
    (hex : ∃ r ∈ s.fuelRecords, r.id = rid)
    (hgood : ∀ r ∈ s.fuelRecords, r.id = rid →
      r.distance.isFin = true ∧ r.fuelAmount.isFin = true ∧
      ((r.distance.gtZero && r.fuelAmount.gtZero) = true →
        r.consumption = (r.distance.div r.fuelAmount).round2)) :
    ∃ r₀ ∈ s.fuelRecords, updateRecord s rid ⟨none, none, none, none⟩ = .ok (s, r₀) := by
  obtain ⟨o, n, rs', h⟩ :=
    updateRecordList_isSome rid ⟨none, none, none, none⟩ s.fuelRecords hex
  obtain ⟨pre, post, e1, e2, e3, e4, e5⟩ := updateRecordList_spec _ _ _ _ _ _ h
  have ho_mem : o ∈ s.fuelRecords := by rw [e1]; simp
  obtain ⟨hD, hF, hC⟩ := hgood o ho_mem e4
  have hn : n = o := by rw [e5, patchRecord_empty, recalcConsumption_of_consistent o hC]
  have hrs : rs' = s.fuelRecords := by rw [e2, hn, ← e1]
  refine ⟨o, ho_mem, ?_⟩
  rw [updateRecord_eq_ok s rid ⟨none, none, none, none⟩ o n rs' h, hn, hrs,
    updateFirstVehicle_congr _ _ (fun v => applyDelta_self o v hD hF) s.vehicles]

/-- Witness for claim C9: an empty patch on a consistent concrete record
returns the state unchanged. -/
theorem claim_C9_empty_patch_witness :
    ∃ r₀ ∈ (State.mk [⟨"v1", "Car A", "petrol", "", .fin 150, .fin 10⟩]
      [⟨"r1", "v1", .fin 10, .fin 150, .fin 15, "T", "", "T"⟩]).fuelRecords,
      updateRecord (State.mk [⟨"v1", "Car A", "petrol", "", .fin 150, .fin 10⟩]
        [⟨"r1", "v1", .fin 10, .fin 150, .fin 15, "T", "", "T"⟩]) "r1"
        ⟨none, none, none, none⟩ =
      .ok (State.mk [⟨"v1", "Car A", "petrol", "", .fin 150, .fin 10⟩]
        [⟨"r1", "v1", .fin 10, .fin 150, .fin 15, "T", "", "T"⟩], r₀) :=
  claim_C9_empty_patch
    (State.mk [⟨"v1", "Car A", "petrol", "", .fin 150, .fin 10⟩]
      [⟨"r1", "v1", .fin 10, .fin 150, .fin 15, "T", "", "T"⟩]) "r1"
    ⟨⟨"r1", "v1", .fin 10, .fin 150, .fin 15, "T", "", "T"⟩, by simp, rfl⟩
    (by
      intro r hr hid
      simp only [List.mem_singleton] at hr
      subst hr
      norm_num [JNum.isFin, JNum.gtZero, JNum.div, JNum.round2, round_eq])

/-- Counterexample to claim C9 as stated: a record created with distance
Infinity (the code never validates its numeric inputs) makes the owning
vehicle's totalDistance Infinity; an empty-patch `updateRecord` then
changes that aggregate to NaN, because the delta adjustment computes
`Infinity - Infinity + Infinity = NaN`. -/
theorem claim_C9_counterexample :
    recordFuelConsumption (State.mk [⟨"v1", "Car A", "petrol", "", .fin 0, .fin 0⟩] [])
        "v1" (.fin 10) .inf none "" "r1" "T" =
      .ok (State.mk [⟨"v1", "Car A", "petrol", "", .inf, .fin 10⟩]
        [⟨"r1", "v1", .fin 10, .inf, .inf, "T", "", "T"⟩],
        ⟨"r1", "v1", .fin 10, .inf, .inf, "T", "", "T"⟩) ∧
    updateRecord (State.mk [⟨"v1", "Car A", "petrol", "", .inf, .fin 10⟩]
        [⟨"r1", "v1", .fin 10, .inf, .inf, "T", "", "T"⟩]) "r1"
        ⟨none, none, none, none⟩ =
      .ok (State.mk [⟨"v1", "Car A", "petrol", "", .nan, .fin 10⟩]
        [⟨"r1", "v1", .fin 10, .inf, .inf, "T", "", "T"⟩],
        ⟨"r1", "v1", .fin 10, .inf, .inf, "T", "", "T"⟩) ∧
    ¬ (JNum.nan) = .inf := by
  refine ⟨?_, ?_, by simp⟩
  · norm_num [recordFuelConsumption, List.find?, updateFirstVehicle, JNum.div,
      JNum.round2, JNum.add]
  · norm_num [updateRecord, updateRecordList, patchRecord, recalcConsumption, applyDelta,
      updateFirstVehicle, JNum.div, JNum.round2, JNum.add, JNum.sub, JNum.neg, JNum.gtZero]

/-!
Claim C10.
-/

theorem nan_fuel_persists_applyOp (s : State) (op : Op) (hop : isUpdDel op) (vid : String)
    (h : ∃ v ∈ s.vehicles, v.id = vid ∧ v.totalFuelConsumed = .nan) :
    ∃ v ∈ (applyOp s op).vehicles, v.id = vid ∧ v.totalFuelConsumed = .nan := by
  obtain ⟨v, hv, hvid, hnan⟩ := h
  cases op with
  | createRec a b c d e f g => exact absurd hop (by simp [isUpdDel])
  | updateRec rid u =>
      cases hupd : updateRecordList rid u s.fuelRecords with
      | none =>
          simp only [applyOp, updateRecord_eq_error s rid u hupd]
          exact ⟨v, hv, hvid, hnan⟩
      | some t =>
          obtain ⟨o, n, rs'⟩ := t
          simp only [applyOp, updateRecord_eq_ok s rid u o n rs' hupd]
          rcases mem_updateFirstVehicle n.vehicleId (applyDelta o n) s.vehicles v hv
            with hm | hm
          · exact ⟨v, hm, hvid, hnan⟩
          · refine ⟨applyDelta o n v, hm, hvid, ?_⟩
            show (v.totalFuelConsumed.sub o.fuelAmount).add n.fuelAmount = .nan
            rw [hnan, JNum.nan_sub, JNum.nan_add]
  | deleteRec rid =>
      cases hdel : removeFirstRecord rid s.fuelRecords with
      | none =>
          simp only [applyOp, deleteRecord_eq_error s rid hdel]
          exact ⟨v, hv, hvid, hnan⟩
      | some t =>
          obtain ⟨x, rest⟩ := t
          simp only [applyOp, deleteRecord_eq_ok s rid x rest hdel]
          rcases mem_updateFirstVehicle x.vehicleId
            (fun v => { v with totalDistance := v.totalDistance.sub x.distance
                               totalFuelConsumed := v.totalFuelConsumed.sub x.fuelAmount })
            s.vehicles v hv with hm | hm
          · exact ⟨v, hm, hvid, hnan⟩
          · refine ⟨_, hm, hvid, ?_⟩
            show v.totalFuelConsumed.sub x.fuelAmount = .nan
            rw [hnan, JNum.nan_sub]

theorem nan_dist_persists_applyOp (s : State) (op : Op) (hop : isUpdDel op) (vid : String)
    (h : ∃ v ∈ s.vehicles, v.id = vid ∧ v.totalDistance = .nan) :
    ∃ v ∈ (applyOp s op).vehicles, v.id = vid ∧ v.totalDistance = .nan := by
  obtain ⟨v, hv, hvid, hnan⟩ := h
  cases op with
  | createRec a b c d e f g => exact absurd hop (by simp [isUpdDel])
  | updateRec rid u =>
      cases hupd : updateRecordList rid u s.fuelRecords with
      | none =>
          simp only [applyOp, updateRecord_eq_error s rid u hupd]
          exact ⟨v, hv, hvid, hnan⟩
      | some t =>
          obtain ⟨o, n, rs'⟩ := t
          simp only [applyOp, updateRecord_eq_ok s rid u o n rs' hupd]
          rcases mem_updateFirstVehicle n.vehicleId (applyDelta o n) s.vehicles v hv
            with hm | hm
          · exact ⟨v, hm, hvid, hnan⟩
          · refine ⟨applyDelta o n v, hm, hvid, ?_⟩
            show (v.totalDistance.sub o.distance).add n.distance = .nan
            rw [hnan, JNum.nan_sub, JNum.nan_add]
  | deleteRec rid =>
      cases hdel : removeFirstRecord rid s.fuelRecords with
      | none =>
          simp only [applyOp, deleteRecord_eq_error s rid hdel]
          exact ⟨v, hv, hvid, hnan⟩
      | some t =>
          obtain ⟨x, rest⟩ := t
          simp only [applyOp, deleteRecord_eq_ok s rid x rest hdel]
          rcases mem_updateFirstVehicle x.vehicleId
            (fun v => { v with totalDistance := v.totalDistance.sub x.distance
                               totalFuelConsumed := v.totalFuelConsumed.sub x.fuelAmount })
            s.vehicles v hv with hm | hm
          · exact ⟨v, hm, hvid, hnan⟩
          · refine ⟨_, hm, hvid, ?_⟩
            show v.totalDistance.sub x.distance = .nan
            rw [hnan, JNum.nan_sub]

theorem nan_fuel_persists_applyOps (s : State) (ops : List Op)
    (hops : ∀ op ∈ ops, isUpdDel op) (vid : String)
    (h : ∃ v ∈ s.vehicles, v.id = vid ∧ v.totalFuelConsumed = .nan) :
    ∃ v ∈ (applyOps s ops).vehicles, v.id = vid ∧ v.totalFuelConsumed = .nan := by
  induction ops generalizing s with
  | nil => exact h
  | cons op ops ih =>
      exact ih (applyOp s op) (fun x hx => hops x (by simp [hx]))
        (nan_fuel_persists_applyOp s op (hops op (by simp)) vid h)

theorem nan_dist_persists_applyOps (s : State) (ops : List Op)
    (hops : ∀ op ∈ ops, isUpdDel op) (vid : String)
    (h : ∃ v ∈ s.vehicles, v.id = vid ∧ v.totalDistance = .nan) :
    ∃ v ∈ (applyOps s ops).vehicles, v.id = vid ∧ v.totalDistance = .nan := by
  induction ops generalizing s with
  | nil => exact h
  | cons op ops ih =>
      exact ih (applyOp s op) (fun x hx => hops x (by simp [hx]))
        (nan_dist_persists_applyOp s op (hops op (by simp)) vid h)

/-- Claim C10: on an existing record, `updateRecord` whose patch carries a
NaN fuelAmount (resp. distance) does not raise: it stores NaN in the
record field, the owning vehicle's totalFuelConsumed (resp. totalDistance)
becomes NaN through the delta adjustment, and it stays NaN (hence never
finite again) under any later sequence of updateRecord / deleteRecord
calls. -/
theorem claim_C10_nan_propagation (s : State) (rid : String) (u : RecordUpdates)
    (hex : ∃ r ∈ s.fuelRecords, r.id = rid) :
    ∃ s' n, updateRecord s rid u = .ok (s', n) ∧
      (u.fuelAmount = some .nan →
        n.fuelAmount = .nan ∧
        ∀ v₀ ∈ s.vehicles, v₀.id = n.vehicleId →
          ∀ ops : List Op, (∀ op ∈ ops, isUpdDel op) →
            ∃ v' ∈ (applyOps s' ops).vehicles, v'.id = n.vehicleId ∧
              v'.totalFuelConsumed = .nan ∧ v'.totalFuelConsumed.isFin = false) ∧
      (u.distance = some .nan →
        n.distance = .nan ∧
        ∀ v₀ ∈ s.vehicles, v₀.id = n.vehicleId →
          ∀ ops : List Op, (∀ op ∈ ops, isUpdDel op) →
            ∃ v' ∈ (applyOps s' ops).vehicles, v'.id = n.vehicleId ∧
              v'.totalDistance = .nan ∧ v'.totalDistance.isFin = false) := by
  obtain ⟨o, n, rs', h⟩ := updateRecordList_isSome rid u s.fuelRecords hex
  obtain ⟨pre, post, e1, e2, e3, e4, e5⟩ := updateRecordList_spec _ _ _ _ _ _ h
  refine ⟨_, n, updateRecord_eq_ok s rid u o n rs' h, ?_, ?_⟩
  · intro hu
    have hnf : n.fuelAmount = .nan := by
      rw [e5, patched_fuelAmount, hu]; rfl
    refine ⟨hnf, ?_⟩
    intro v₀ hv₀ hid ops hops
    have hsome : (s.vehicles.find? (fun v => v.id = n.vehicleId)).isSome := by
      rw [List.find?_isSome]
      exact ⟨v₀, hv₀, by simp [hid]⟩
    obtain ⟨v₁, hfind⟩ := Option.isSome_iff_exists.mp hsome
    have h2 := updateFirstVehicle_find? n.vehicleId (applyDelta o n) (fun v => rfl)
      s.vehicles v₁ hfind
    have hbase : ∃ v ∈ updateFirstVehicle n.vehicleId (applyDelta o n) s.vehicles,
        v.id = n.vehicleId ∧ v.totalFuelConsumed = .nan := by
      refine ⟨applyDelta o n v₁, List.mem_of_find?_eq_some h2, ?_, ?_⟩
      · show v₁.id = n.vehicleId
        simpa using List.find?_some hfind
      · show (v₁.totalFuelConsumed.sub o.fuelAmount).add n.fuelAmount = .nan
        rw [hnf, JNum.add_nan]
    obtain ⟨v', hv', hid', hnan'⟩ := nan_fuel_persists_applyOps
      (State.mk (updateFirstVehicle n.vehicleId (applyDelta o n) s.vehicles) rs')
      ops hops n.vehicleId hbase
    exact ⟨v', hv', hid', hnan', by rw [hnan']; rfl⟩
  · intro hu
    have hnd : n.distance = .nan := by
      rw [e5, patched_distance, hu]; rfl
    refine ⟨hnd, ?_⟩
    intro v₀ hv₀ hid ops hops
    have hsome : (s.vehicles.find? (fun v => v.id = n.vehicleId)).isSome := by
      rw [List.find?_isSome]
      exact ⟨v₀, hv₀, by simp [hid]⟩
    obtain ⟨v₁, hfind⟩ := Option.isSome_iff_exists.mp hsome
    have h2 := updateFirstVehicle_find? n.vehicleId (applyDelta o n) (fun v => rfl)
      s.vehicles v₁ hfind
    have hbase : ∃ v ∈ updateFirstVehicle n.vehicleId (applyDelta o n) s.vehicles,
        v.id = n.vehicleId ∧ v.totalDistance = .nan := by
      refine ⟨applyDelta o n v₁, List.mem_of_find?_eq_some h2, ?_, ?_⟩
      · show v₁.id = n.vehicleId
        simpa using List.find?_some hfind
      · show (v₁.totalDistance.sub o.distance).add n.distance = .nan
        rw [hnd, JNum.add_nan]
    obtain ⟨v', hv', hid', hnan'⟩ := nan_dist_persists_applyOps
      (State.mk (updateFirstVehicle n.vehicleId (applyDelta o n) s.vehicles) rs')
      ops hops n.vehicleId hbase
    exact ⟨v', hv', hid', hnan', by rw [hnan']; rfl⟩

/-- Witness for claim C10: patching the scenario record with a NaN
fuelAmount (e.g. `updateRecord(id, {fuelAmount: "abc"})`). -/
theorem claim_C10_nan_propagation_witness :
    ∃ s' n, updateRecord (State.mk [⟨"v1", "Car A", "petrol", "", .fin 150, .fin 10⟩]
        [⟨"r1", "v1", .fin 10, .fin 150, .fin 15, "T", "", "T"⟩]) "r1"
        ⟨some .nan, none, none, none⟩ = .ok (s', n) ∧
      ((⟨some .nan, none, none, none⟩ : RecordUpdates).fuelAmount = some .nan →
        n.fuelAmount = .nan ∧
        ∀ v₀ ∈ (State.mk [⟨"v1", "Car A", "petrol", "", .fin 150, .fin 10⟩]
            [⟨"r1", "v1", .fin 10, .fin 150, .fin 15, "T", "", "T"⟩]).vehicles,
          v₀.id = n.vehicleId →
          ∀ ops : List Op, (∀ op ∈ ops, isUpdDel op) →
            ∃ v' ∈ (applyOps s' ops).vehicles, v'.id = n.vehicleId ∧
              v'.totalFuelConsumed = .nan ∧ v'.totalFuelConsumed.isFin = false) ∧
      ((⟨some .nan, none, none, none⟩ : RecordUpdates).distance = some .nan →
        n.distance = .nan ∧
        ∀ v₀ ∈ (State.mk [⟨"v1", "Car A", "petrol", "", .fin 150, .fin 10⟩]
            [⟨"r1", "v1", .fin 10, .fin 150, .fin 15, "T", "", "T"⟩]).vehicles,
          v₀.id = n.vehicleId →
          ∀ ops : List Op, (∀ op ∈ ops, isUpdDel op) →
            ∃ v' ∈ (applyOps s' ops).vehicles, v'.id = n.vehicleId ∧
              v'.totalDistance = .nan ∧ v'.totalDistance.isFin = false) :=
  claim_C10_nan_propagation
    (State.mk [⟨"v1", "Car A", "petrol", "", .fin 150, .fin 10⟩]
      [⟨"r1", "v1", .fin 10, .fin 150, .fin 15, "T", "", "T"⟩]) "r1"
    ⟨some .nan, none, none, none⟩
    ⟨⟨"r1", "v1", .fin 10, .fin 150, .fin 15, "T", "", "T"⟩, by simp, rfl⟩

/-!
Claims C5 and C6: the JSON export/import layer.
-/

mutual

theorem jsonRoundTrip_of_allFinite : ∀ x : JsVal, x.allFinite = true → jsonRoundTrip x = x
  | .num (.fin q), _ => rfl
  | .num .nan, h => by simp [JsVal.allFinite, JNum.isFin] at h
  | .num .inf, h => by simp [JsVal.allFinite, JNum.isFin] at h
  | .num .ninf, h => by simp [JsVal.allFinite, JNum.isFin] at h
  | .str s, _ => rfl
  | .bool b, _ => rfl
  | .null, _ => rfl
  | .arr xs, h => by
      have h' : JsVal.allFiniteList xs = true := by simpa [JsVal.allFinite] using h
      simp only [jsonRoundTrip]
      rw [jsonRoundTripList_of_allFinite xs h']
  | .obj fs, h => by
      have h' : JsVal.allFiniteObj fs = true := by simpa [JsVal.allFinite] using h
      simp only [jsonRoundTrip]
      rw [jsonRoundTripObj_of_allFinite fs h']

theorem jsonRoundTripList_of_allFinite :
    ∀ xs : List JsVal, JsVal.allFiniteList xs = true → jsonRoundTripList xs = xs
  | [], _ => rfl
  | x :: xs, h => by
      simp only [JsVal.allFiniteList, Bool.and_eq_true] at h
      simp only [jsonRoundTripList]
      rw [jsonRoundTrip_of_allFinite x h.1, jsonRoundTripList_of_allFinite xs h.2]

theorem jsonRoundTripObj_of_allFinite :
    ∀ fs : List (String × JsVal), JsVal.allFiniteObj fs = true → jsonRoundTripObj fs = fs
  | [], _ => rfl
  | (k, v) :: fs, h => by
      simp only [JsVal.allFiniteObj, Bool.and_eq_true] at h
      simp only [jsonRoundTripObj]
      rw [jsonRoundTrip_of_allFinite v h.1, jsonRoundTripObj_of_allFinite fs h.2]

end

/-- Importing the untouched export object restores the state whatever the
collections hold (each collection is either replaced by itself or kept). -/
theorem importData_export_self (rs : RawState) (now : String) :
    importData rs (some (exportData rs now)) = .ok (rs, exportData rs now) := by
  cases hv : rs.vehicles.truthy <;> cases hr : rs.records.truthy <;>
    simp [importData, exportData, JsVal.getField, hv, hr]

/-- Claim C5 (amended): for every store state all of whose numeric fields
are finite, `importData(exportData())` — the serialized snapshot parsed
back, i.e. the value-level JSON round trip of the export object —
restores exactly the same vehicles and records, in the same order, for
every field. -/
theorem claim_C5_roundtrip (rs : RawState) (now : String)
    (hv : rs.vehicles.allFinite = true) (hr : rs.records.allFinite = true) :
    importData rs (some (jsonRoundTrip (exportData rs now))) =
      .ok (rs, exportData rs now) := by
  have hexp : jsonRoundTrip (exportData rs now) = exportData rs now := by
    apply jsonRoundTrip_of_allFinite
    simp [exportData, JsVal.allFinite, JsVal.allFiniteObj, hv, hr]
  rw [hexp, importData_export_self]

/-- Witness for claim C5: the round trip at a concrete all-finite tracker
state. -/
theorem claim_C5_roundtrip_witness :
    importData (State.toRaw (State.mk [⟨"v1", "Car A", "petrol", "", .fin 150, .fin 10⟩]
        [⟨"r1", "v1", .fin 10, .fin 150, .fin 15, "T", "", "T"⟩]))
      (some (jsonRoundTrip (exportData
        (State.toRaw (State.mk [⟨"v1", "Car A", "petrol", "", .fin 150, .fin 10⟩]
          [⟨"r1", "v1", .fin 10, .fin 150, .fin 15, "T", "", "T"⟩])) "E"))) =
      .ok (State.toRaw (State.mk [⟨"v1", "Car A", "petrol", "", .fin 150, .fin 10⟩]
          [⟨"r1", "v1", .fin 10, .fin 150, .fin 15, "T", "", "T"⟩]),
        exportData (State.toRaw (State.mk [⟨"v1", "Car A", "petrol", "", .fin 150, .fin 10⟩]
          [⟨"r1", "v1", .fin 10, .fin 150, .fin 15, "T", "", "T"⟩])) "E") :=
  claim_C5_roundtrip
    (State.toRaw (State.mk [⟨"v1", "Car A", "petrol", "", .fin 150, .fin 10⟩]
      [⟨"r1", "v1", .fin 10, .fin 150, .fin 15, "T", "", "T"⟩])) "E" rfl rfl

/-- Counterexample to claim C5 as stated: a store state holding a record
with consumption Infinity (reachable: recordFuelConsumption with zero
fuelAmount stores one).  JSON serializes the non-finite number as null, so
the round trip yields a record whose consumption field is null — not the
original non-finite value — and the restored state differs from the
original. -/
theorem claim_C5_counterexample :
    importData (State.toRaw (State.mk [⟨"v1", "Car A", "petrol", "", .fin 150, .fin 0⟩]
        [⟨"r1", "v1", .fin 0, .fin 150, .inf, "T", "", "T"⟩]))
      (some (jsonRoundTrip (exportData
        (State.toRaw (State.mk [⟨"v1", "Car A", "petrol", "", .fin 150, .fin 0⟩]
          [⟨"r1", "v1", .fin 0, .fin 150, .inf, "T", "", "T"⟩])) "E"))) =
      .ok (RawState.mk
        (.arr [.obj [("id", .str "v1"), ("name", .str "Car A"),
          ("fuelType", .str "petrol"), ("createdAt", .str ""),
          ("totalDistance", .num (.fin 150)), ("totalFuelConsumed", .num (.fin 0))]])
        (.arr [.obj [("id", .str "r1"), ("vehicleId", .str "v1"),
          ("fuelAmount", .num (.fin 0)), ("distance", .num (.fin 150)),
          ("consumption", .null), ("date", .str "T"), ("notes", .str ""),
          ("createdAt", .str "T")]]),
        jsonRoundTrip (exportData
          (State.toRaw (State.mk [⟨"v1", "Car A", "petrol", "", .fin 150, .fin 0⟩]
            [⟨"r1", "v1", .fin 0, .fin 150, .inf, "T", "", "T"⟩])) "E")) ∧
    ¬ (JsVal.arr [.obj [("id", .str "r1"), ("vehicleId", .str "v1"),
        ("fuelAmount", .num (.fin 0)), ("distance", .num (.fin 150)),
        ("consumption", .null), ("date", .str "T"), ("notes", .str ""),
        ("createdAt", .str "T")]]) =
      (State.toRaw (State.mk [⟨"v1", "Car A", "petrol", "", .fin 150, .fin 0⟩]
        [⟨"r1", "v1", .fin 0, .fin 150, .inf, "T", "", "T"⟩])).records := by
  constructor
  · simp [State.toRaw, Vehicle.toJs, FuelRecord.toJs, exportData, jsonRoundTrip,
      jsonRoundTripList, jsonRoundTripObj, importData, JsVal.getField, JsVal.truthy]
  · simp [State.toRaw, FuelRecord.toJs]

/-- Modelled from the spec: the expected snapshot structure of the
export/import format — "a structured object with three fields: vehicles
(array of Vehicle), records (array of FuelRecord), exportedAt (timestamp
string) ... import accepts the same shape but tolerates partial presence
of the two collection fields".  A parsed value has this shape when it is
an object whose vehicles / records fields, where present, are arrays. -/
def specSnapshotShape : JsVal → Bool
  | .obj fs =>
      (match ((fs.filter (fun p => p.1 = "vehicles")).getLast?).map Prod.snd with
        | some (.arr _) => true
        | some _ => false
        | none => true) &&
      (match ((fs.filter (fun p => p.1 = "records")).getLast?).map Prod.snd with
        | some (.arr _) => true
        | some _ => false
        | none => true)
  | _ => false

/-- Claim C6 (amended): `importData` raises the ImportError exactly when
the input is not parseable JSON (`none`) or parses to JSON null (whose
property access throws inside the same try block); on every other input it
succeeds — whether or not the value has the snapshot shape — replacing
whichever of the two collections appears as a truthy field, and a snapshot
carrying only vehicles leaves records untouched (and vice versa). -/
theorem claim_C6_importData (rs : RawState) :
    importData rs none = .error "Invalid JSON format for import" ∧
    importData rs (some .null) = .error "Invalid JSON format for import" ∧
    (∀ j : JsVal, ¬ j = .null → ∃ rs', importData rs (some j) = .ok (rs', j)) ∧
    (∀ vs : List JsVal, importData rs (some (.obj [("vehicles", .arr vs)])) =
      .ok ({ rs with vehicles := .arr vs }, .obj [("vehicles", .arr vs)])) ∧
    (∀ rcs : List JsVal, importData rs (some (.obj [("records", .arr rcs)])) =
      .ok ({ rs with records := .arr rcs }, .obj [("records", .arr rcs)])) := by
  refine ⟨rfl, rfl, ?_, ?_, ?_⟩
  · intro j hj
    cases j with
    | num n => exact ⟨_, rfl⟩
    | str a => exact ⟨_, rfl⟩
    | bool b => exact ⟨_, rfl⟩
    | null => exact absurd rfl hj
    | arr xs => exact ⟨_, rfl⟩
    | obj fs => exact ⟨_, rfl⟩
  · intro vs
    simp [importData, JsVal.getField, JsVal.truthy]
  · intro rcs
    simp [importData, JsVal.getField, JsVal.truthy]

/-- Witness for claim C6: the success branch at a concrete non-null,
non-snapshot value. -/
theorem claim_C6_importData_witness :
    ∃ rs', importData (RawState.mk (.arr []) (.arr []))
      (some (.num (.fin 5))) = .ok (rs', .num (.fin 5)) :=
  (claim_C6_importData (RawState.mk (.arr []) (.arr []))).2.2.1 (.num (.fin 5)) (by simp)

/-- Counterexample to claim C6 as stated: the JSON text "false" parses to
the boolean false, which is not the expected snapshot structure, yet
`importData` raises no ImportError — it succeeds and leaves both
collections untouched, contradicting the claimed "if and only if". -/
theorem claim_C6_counterexample :
    specSnapshotShape (.bool false) = false ∧
    importData (RawState.mk (.arr []) (.arr [])) (some (.bool false)) =
      .ok (RawState.mk (.arr []) (.arr []), .bool false) := ⟨rfl, rfl⟩

end FuelTracker
